import Mathlib

/-!
Shallow embedding of `fetch_commits.py` (GitHub All Repositories Commits
Fetcher).  Network I/O is modelled by oracles: a function from page numbers
to responses stands for the paginated HTTP endpoints, and the functions
additionally return the ordered list of requests they issued.  Python
strings are modelled as `String` / `List Char`; Python's string comparison
(code-point lexicographic) is modelled by `strLe`; `datetime.strptime` with
the two formats used by the script is modelled by `strptimeTimestampChars` /
`strptimeDateChars` (optional zero-padding, calendar validation); the strict
fixed-width recognizer `parseChars` states the fixed-format scope of the
sorting claim.
-/

/-- Code-point lexicographic comparison of character lists: Python's `s <= t`
on strings. -/
def strLe : List Char → List Char → Bool
  | [], _ => true
  | _ :: _, [] => false
  | a :: as, b :: bs =>
    decide (a.val.toNat < b.val.toNat) || (decide (a.val.toNat = b.val.toNat) && strLe as bs)

/-- A parsed UTC timestamp, the result of `datetime.strptime(s, "%Y-%m-%dT%H:%M:%SZ")`. -/
structure Timestamp where
  year : Nat
  month : Nat
  day : Nat
  hour : Nat
  minute : Nat
  second : Nat
deriving Repr, DecidableEq

/-- Decimal digit test on a character (code points 48 to 57). -/
def isDigitCh (c : Char) : Bool := decide (48 ≤ c.val.toNat ∧ c.val.toNat ≤ 57)

/-- Numeric value of a digit character. -/
def dv (c : Char) : Nat := c.val.toNat - 48

/-- Recognizer of the fixed-width zero-padded format `YYYY-MM-DDTHH:MM:SSZ`:
twenty characters, digits and separators at fixed positions, with per-field
range checks.  This is the "fixed format" the spec names when it scopes the
lexicographic/chronological coincidence to fixed-width strings; the script's
actual parser, `datetime.strptime`, is laxer and stricter at once and is
modelled separately by `strptimeTimestampChars`. -/
def parseChars : List Char → Option Timestamp
  | [y1, y2, y3, y4, p1, o1, o2, p2, d1, d2, p3, h1, h2, p4, n1, n2, p5, e1, e2, p6] =>
    if isDigitCh y1 = true ∧ isDigitCh y2 = true ∧ isDigitCh y3 = true ∧ isDigitCh y4 = true ∧
        p1 = '-' ∧ isDigitCh o1 = true ∧ isDigitCh o2 = true ∧ p2 = '-' ∧
        isDigitCh d1 = true ∧ isDigitCh d2 = true ∧ p3 = 'T' ∧
        isDigitCh h1 = true ∧ isDigitCh h2 = true ∧ p4 = ':' ∧
        isDigitCh n1 = true ∧ isDigitCh n2 = true ∧ p5 = ':' ∧
        isDigitCh e1 = true ∧ isDigitCh e2 = true ∧ p6 = 'Z' ∧
        1 ≤ 10 * dv o1 + dv o2 ∧ 10 * dv o1 + dv o2 ≤ 12 ∧
        1 ≤ 10 * dv d1 + dv d2 ∧ 10 * dv d1 + dv d2 ≤ 31 ∧
        10 * dv h1 + dv h2 ≤ 23 ∧ 10 * dv n1 + dv n2 ≤ 59 ∧ 10 * dv e1 + dv e2 ≤ 61 then
      some ⟨1000 * dv y1 + 100 * dv y2 + 10 * dv y3 + dv y4,
        10 * dv o1 + dv o2, 10 * dv d1 + dv d2,
        10 * dv h1 + dv h2, 10 * dv n1 + dv n2, 10 * dv e1 + dv e2⟩
    else none
  | _ => none

/-- Parse of a timestamp string (see `parseChars`). -/
def parseTimestamp (s : String) : Option Timestamp := parseChars s.data

/-- Total-order key of a timestamp: fields combined positionally, so that
`chronoKey u ≤ chronoKey v` is exactly the lexicographic (chronological)
order on (year, month, day, hour, minute, second). -/
def chronoKey (t : Timestamp) : Nat :=
  t.second + 100 * (t.minute + 100 * (t.hour + 100 * (t.day + 100 * (t.month + 100 * t.year))))

/-- Chronological order on parsed timestamps. -/
def chronoLe (u v : Timestamp) : Bool := decide (chronoKey u ≤ chronoKey v)

/-- Maximal leading run of decimal digits: its length, numeric value and the
remaining characters.  In both strptime formats every field is followed by a
non-digit or the end of the string, so CPython's field alternatives succeed
exactly when the whole maximal run forms a valid field: regex backtracking
into a shorter match always fails on the following literal. -/
def digitSpanAux : Nat → Nat → List Char → Nat × Nat × List Char
  | n, v, [] => (n, v, [])
  | n, v, c :: cs =>
    if isDigitCh c then digitSpanAux (n + 1) (10 * v + dv c) cs else (n, v, c :: cs)

/-- See `digitSpanAux`. -/
def digitSpan (l : List Char) : Nat × Nat × List Char := digitSpanAux 0 0 l

/-- Gregorian leap-year rule, as validated by the datetime constructor. -/
def isLeap (y : Nat) : Bool := decide ((y % 4 = 0 ∧ y % 100 ≠ 0) ∨ y % 400 = 0)

/-- Length of a month, as validated by the datetime constructor. -/
def daysInMonth (y m : Nat) : Nat :=
  if m = 2 then (if isLeap y then 29 else 28)
  else if m = 4 ∨ m = 6 ∨ m = 9 ∨ m = 11 then 30
  else 31

/-- Day field of strptime: a run of one or two digits valued 1 to 31, or a
space followed by one nonzero digit.  Returns the day and the rest. -/
def strptimeDayField : List Char → Option (Nat × List Char)
  | ' ' :: c :: rest => if isDigitCh c = true ∧ 1 ≤ dv c then some (dv c, rest) else none
  | l =>
    let s := digitSpan l
    if 1 ≤ s.1 ∧ s.1 ≤ 2 ∧ 1 ≤ s.2.1 ∧ s.2.1 ≤ 31 then some (s.2.1, s.2.2) else none

/-- datetime.strptime under the date format of the command line: year of
exactly four digits, month and day of one or two digits in range with
zero-padding optional, literal dashes, full-string match; the datetime
constructor additionally requires year at least 1 and a calendar-valid day
(so 2024-1-5 parses while 2024-02-30 raises). -/
def strptimeDateChars (l : List Char) : Option (Nat × Nat × Nat) :=
  let s1 := digitSpan l
  if s1.1 = 4 then
    match s1.2.2 with
    | '-' :: r2 =>
      let s2 := digitSpan r2
      if 1 ≤ s2.1 ∧ s2.1 ≤ 2 ∧ 1 ≤ s2.2.1 ∧ s2.2.1 ≤ 12 then
        match s2.2.2 with
        | '-' :: r3 =>
          match strptimeDayField r3 with
          | some (d, rest) =>
            if rest = [] ∧ 1 ≤ s1.2.1 ∧ d ≤ daysInMonth s1.2.1 s2.2.1 then
              some (s1.2.1, s2.2.1, d)
            else none
          | none => none
        | _ => none
      else none
    | _ => none
  else none

/-- String version of `strptimeDateChars`. -/
def strptimeDate (s : String) : Option (Nat × Nat × Nat) := strptimeDateChars s.data

/-- datetime.strptime under the timestamp format of the report emitters:
like `strptimeDateChars` followed by a literal T (case-insensitive, as the
format regex is compiled IGNORECASE), hour 0-23, minute 0-59 and second 0-61
of one or two digits each with zero-padding optional, colons, a literal Z
(case-insensitive) and the end of the string; the datetime constructor then
requires year at least 1, a calendar-valid day and second at most 59 (so
2024-1-10T0:0:0Z parses while 2023-02-30T00:00:00Z and second 60 raise). -/
def strptimeTimestampChars (l : List Char) : Option Timestamp :=
  let s1 := digitSpan l
  if s1.1 = 4 then
    match s1.2.2 with
    | '-' :: r2 =>
      let s2 := digitSpan r2
      if 1 ≤ s2.1 ∧ s2.1 ≤ 2 ∧ 1 ≤ s2.2.1 ∧ s2.2.1 ≤ 12 then
        match s2.2.2 with
        | '-' :: r3 =>
          match strptimeDayField r3 with
          | some (d, r4) =>
            match r4 with
            | t :: r5 =>
              if t = 'T' ∨ t = 't' then
                let s4 := digitSpan r5
                if 1 ≤ s4.1 ∧ s4.1 ≤ 2 ∧ s4.2.1 ≤ 23 then
                  match s4.2.2 with
                  | ':' :: r6 =>
                    let s5 := digitSpan r6
                    if 1 ≤ s5.1 ∧ s5.1 ≤ 2 ∧ s5.2.1 ≤ 59 then
                      match s5.2.2 with
                      | ':' :: r7 =>
                        let s6 := digitSpan r7
                        if 1 ≤ s6.1 ∧ s6.1 ≤ 2 ∧ s6.2.1 ≤ 61 then
                          match s6.2.2 with
                          | z :: r8 =>
                            if (z = 'Z' ∨ z = 'z') ∧ r8 = [] ∧ 1 ≤ s1.2.1 ∧
                                d ≤ daysInMonth s1.2.1 s2.2.1 ∧ s6.2.1 ≤ 59 then
                              some ⟨s1.2.1, s2.2.1, d, s4.2.1, s5.2.1, s6.2.1⟩
                            else none
                          | _ => none
                        else none
                      | _ => none
                    else none
                  | _ => none
                else none
              else none
            | _ => none
          | none => none
        | _ => none
      else none
    | _ => none
  else none

/-- String version of `strptimeTimestampChars`. -/
def strptimeTimestamp (s : String) : Option Timestamp := strptimeTimestampChars s.data

/-- A repository item as returned by the list-repositories endpoint, with the
fields the script reads: full_name, the private flag, html_url. -/
structure Repo where
  full_name : String
  isPrivate : Bool
  html_url : String
deriving Repr, DecidableEq

/-- The repository back-reference that fetch_all_commits attaches to each
commit: full name, visibility flag, repository web URL. -/
structure RepoTag where
  full_name : String
  isPrivate : Bool
  url : String
deriving Repr, DecidableEq

/-- A commit item as returned by the list-commits endpoint, with the fields
the script reads: sha, commit.message, commit.committer.date, html_url.  The
repository back-reference is absent (none) until fetch_all_commits attaches
it. -/
structure Commit where
  sha : String
  message : String
  date : String
  html_url : String
  repository : Option RepoTag := none
deriving Repr, DecidableEq

/-- An HTTP response to a paginated list request: status code and decoded
JSON body (a list of items). -/
structure Response (α : Type) where
  status : Nat
  body : List α

/-- The response of the identity endpoint used by validate_token: status code
and the login field of the body. -/
structure UserResponse where
  status : Nat
  login : String

/-- Query parameters of a list-commits request. -/
structure CommitQuery where
  repo_full_name : String
  author : String
  since : String
  untilTs : String
deriving Repr, DecidableEq

/-- One HTTP request issued during a run. -/
inductive Call
  | user
  | repos (page : Nat)
  | commits (q : CommitQuery) (page : Nat)
deriving Repr, DecidableEq

/-- Pagination loop of get_all_repositories.  The fuel argument bounds the
iterations of the Python while-True loop; with enough fuel it never runs
out on the inputs of the theorems below.  Besides the accumulated items the
function returns the ordered list of page requests it issued. -/
def get_all_repositories_go (fetch : Nat → Response Repo) :
    Nat → Nat → List Repo → List Call → List Repo × List Call
  | 0, _, repos, calls => (repos, calls)
  | fuel + 1, page, repos, calls =>
    let r := fetch page
    if r.status ≠ 200 then (repos, calls ++ [Call.repos page])
    else if r.body = [] then (repos, calls ++ [Call.repos page])
    else if r.body.length < 100 then (repos ++ r.body, calls ++ [Call.repos page])
    else get_all_repositories_go fetch fuel (page + 1) (repos ++ r.body)
      (calls ++ [Call.repos page])

/-- get_all_repositories: paginate /user/repos from page 1, stopping on a
non-200 response (after logging), an empty page, or a short page. -/
def get_all_repositories (fetch : Nat → Response Repo) (fuel : Nat) :
    List Repo × List Call :=
  get_all_repositories_go fetch fuel 1 [] []

/-- Pagination loop of get_commits_from_repo, same stop rules as the
repository enumerator but silent on non-200. -/
def get_commits_from_repo_go (fetch : CommitQuery → Nat → Response Commit) (q : CommitQuery) :
    Nat → Nat → List Commit → List Call → List Commit × List Call
  | 0, _, commits, calls => (commits, calls)
  | fuel + 1, page, commits, calls =>
    let r := fetch q page
    if r.status ≠ 200 then (commits, calls ++ [Call.commits q page])
    else if r.body = [] then (commits, calls ++ [Call.commits q page])
    else if r.body.length < 100 then (commits ++ r.body, calls ++ [Call.commits q page])
    else get_commits_from_repo_go fetch q fuel (page + 1) (commits ++ r.body)
      (calls ++ [Call.commits q page])

/-- get_commits_from_repo: paginate the repository's commit list filtered by
author and the inclusive date window start_dateT00:00:00Z to
end_dateT23:59:59Z. -/
def get_commits_from_repo (fetch : CommitQuery → Nat → Response Commit)
    (username repo_full_name start_date end_date : String) (fuel : Nat) :
    List Commit × List Call :=
  get_commits_from_repo_go fetch
    ⟨repo_full_name, username, start_date ++ "T00:00:00Z", end_date ++ "T23:59:59Z"⟩
    fuel 1 [] []

/-- Python dict assignment d[k] = v on an association list: replace the value
in place if the key is present, otherwise append the new entry. -/
def dictSet (m : List (String × Nat)) (k : String) (v : Nat) : List (String × Nat) :=
  if m.any (fun p => p.1 == k) then m.map (fun p => if p.1 = k then (k, v) else p)
  else m ++ [(k, v)]

/-- Python list.sort(key=lambda x: x['commit']['committer']['date'],
reverse=True): a stable descending sort by the committer timestamp string. -/
def sortCommits (l : List Commit) : List Commit :=
  l.mergeSort (fun a b => strLe b.date.data a.date.data)

/-- Body of the per-repository loop of fetch_all_commits: fetch the
repository's commits; when nonempty, attach the repository back-reference to
each, append them to the aggregate and record the count. -/
def fetch_all_commits_step (fetchCommits : CommitQuery → Nat → Response Commit)
    (username start_date end_date : String) (fuel : Nat)
    (acc : List Commit × List (String × Nat) × List Call) (repo : Repo) :
    List Commit × List (String × Nat) × List Call :=
  let r := get_commits_from_repo fetchCommits username repo.full_name start_date end_date fuel
  if r.1 ≠ [] then
    (acc.1 ++ r.1.map (fun c =>
        { c with repository := some ⟨repo.full_name, repo.isPrivate, repo.html_url⟩ }),
      dictSet acc.2.1 repo.full_name r.1.length,
      acc.2.2 ++ r.2)
  else (acc.1, acc.2.1, acc.2.2 ++ r.2)

/-- fetch_all_commits: enumerate repositories, fetch each repository's
commits in order, tag and aggregate them, then sort newest-first. -/
def fetch_all_commits (fetchRepos : Nat → Response Repo)
    (fetchCommits : CommitQuery → Nat → Response Commit)
    (username start_date end_date : String) (fuel : Nat) :
    List Commit × List (String × Nat) × List Call :=
  let rr := get_all_repositories fetchRepos fuel
  let acc := rr.1.foldl
    (fetch_all_commits_step fetchCommits username start_date end_date fuel) ([], [], rr.2)
  (sortCommits acc.1, acc.2.1, acc.2.2)

/-- First line of a message: message.split(by newline) taking index 0. -/
def firstLineChars : List Char → List Char
  | [] => []
  | c :: cs => if c = '\n' then [] else c :: firstLineChars cs

/-- String version of `firstLineChars`. -/
def firstLine (s : String) : String := ⟨firstLineChars s.data⟩

/-- message.replace of a newline by a space-pipe-space separator. -/
def replaceNlChars : List Char → List Char
  | [] => []
  | c :: cs =>
    if c = '\n' then ' ' :: '|' :: ' ' :: replaceNlChars cs else c :: replaceNlChars cs

/-- String version of `replaceNlChars`. -/
def replaceNl (s : String) : String := ⟨replaceNlChars s.data⟩

/-- Zero-pad a number below 100 to two digits (strftime field). -/
def pad2 (n : Nat) : String := if n < 10 then "0" ++ toString n else toString n

/-- Zero-pad a number below 10000 to four digits (strftime year field). -/
def pad4 (n : Nat) : String :=
  if n < 10 then "000" ++ toString n
  else if n < 100 then "00" ++ toString n
  else if n < 1000 then "0" ++ toString n
  else toString n

/-- strftime of a parsed timestamp with the display format used by the
script (date, space, hour and minute). -/
def formatDate (t : Timestamp) : String :=
  pad4 t.year ++ "-" ++ pad2 t.month ++ "-" ++ pad2 t.day ++ " " ++
    pad2 t.hour ++ ":" ++ pad2 t.minute

/-- Line of 80 equals signs used by the console output. -/
def eq80 : String := String.mk (List.replicate 80 '=')

/-- Python sorted(items, key=lambda x: x.snd, reverse=True): stable
descending sort of the per-repository counts. -/
def sortCountsDesc (m : List (String × Nat)) : List (String × Nat) :=
  m.mergeSort (fun a b => decide (b.2 ≤ a.2))

/-- Detailed-list loop of display_commits.  Accessing the repository
back-reference of an untagged commit is a KeyError and parsing a timestamp
outside the fixed format is a ValueError; both abort the report. -/
def display_commits_go : Nat → List Commit → Except String (List String)
  | _, [] => .ok []
  | i, c :: rest =>
    match c.repository with
    | none => .error "KeyError: repository"
    | some tag =>
      match strptimeTimestamp c.date with
      | none => .error "ValueError: time data does not match format"
      | some ts =>
        match display_commits_go (i + 1) rest with
        | .error e => .error e
        | .ok out =>
          .ok ((toString i ++ ". " ++ (if tag.isPrivate then "[PRIVATE]" else "[PUBLIC]") ++
              " [" ++ tag.full_name ++ "]") ::
            ("   SHA: " ++ c.sha.take 7) ::
            ("   Date: " ++ formatDate ts) ::
            ("   Message: " ++ firstLine c.message) ::
            ("   URL: " ++ c.html_url) :: "" :: out)

/-- display_commits: the empty aggregate prints only the no-commits notice;
otherwise a summary (totals, per-repository breakdown sorted by descending
count) followed by the numbered detailed list.  Each print is one chunk of
the returned list. -/
def display_commits (commits : List Commit) (repo_commit_count : List (String × Nat)) :
    Except String (List String) :=
  if commits = [] then
    .ok [("\n" ++ eq80), "No commits found in the specified date range.", eq80]
  else
    match display_commits_go 1 commits with
    | .error e => .error e
    | .ok detail =>
      .ok ((("\n" ++ eq80) :: "SUMMARY" :: eq80 ::
        ("Total commits: " ++ toString commits.length) ::
        ("Repositories with commits: " ++ toString repo_commit_count.length) ::
        "" ::
        "Commits by repository:" ::
        (sortCountsDesc repo_commit_count).map
          (fun p => "  " ++ p.1 ++ ": " ++ toString p.2 ++ " commits")) ++
        (("\n" ++ eq80) :: "DETAILED COMMIT LIST" :: (eq80 ++ "\n") :: detail))

/-- Header row of the CSV export. -/
def csvHeader : List String := ["Date", "Repository", "Private", "SHA", "Message", "URL"]

/-- One CSV data row for a tagged commit: Date (raw timestamp), Repository,
Private (Yes or No), SHA truncated to 7 characters, Message with newlines
replaced, URL. -/
def csvRow (c : Commit) (tag : RepoTag) : List String :=
  [c.date, tag.full_name, if tag.isPrivate then "Yes" else "No", c.sha.take 7,
    replaceNl c.message, c.html_url]

/-- Row loop of export_to_csv. -/
def export_to_csv_go : List Commit → Except String (List (List String))
  | [] => .ok []
  | c :: rest =>
    match c.repository with
    | none => .error "KeyError: repository"
    | some tag =>
      match export_to_csv_go rest with
      | .error e => .error e
      | .ok out => .ok (csvRow c tag :: out)

/-- export_to_csv, modelled at row granularity: the written file is the
header row followed by one data row per commit (the csv module's quoting
makes each row exactly one CSV record). -/
def export_to_csv (commits : List Commit) : Except String (List (List String)) :=
  match export_to_csv_go commits with
  | .error e => .error e
  | .ok rows => .ok (csvHeader :: rows)

/-- One write of the Markdown emitter, tagged by whether it is a
repository heading (a write beginning with three hash marks). -/
inductive MdChunk
  | text (s : String)
  | repoHeading (s : String)
deriving Repr, DecidableEq

/-- Markdown privacy label. -/
def privacyLabelMd (b : Bool) : String := if b then "🔒 Private" else "🌐 Public"

/-- Detailed-commits loop of export_to_markdown: a repository heading is
written whenever the repository differs from the tracked current one. -/
def export_to_markdown_go : Option String → List Commit → Except String (List MdChunk)
  | _, [] => .ok []
  | current, c :: rest =>
    match c.repository with
    | none => .error "KeyError: repository"
    | some tag =>
      let heads : List MdChunk :=
        if some tag.full_name = current then []
        else [.repoHeading ("\n### " ++ privacyLabelMd tag.isPrivate ++ " " ++
          tag.full_name ++ "\n\n")]
      match strptimeTimestamp c.date with
      | none => .error "ValueError: time data does not match format"
      | some ts =>
        match export_to_markdown_go (some tag.full_name) rest with
        | .error e => .error e
        | .ok out =>
          .ok (heads ++
            (MdChunk.text ("- **" ++ c.sha.take 7 ++ "** (" ++ formatDate ts ++ "): " ++
              firstLine c.message ++ " [→ View](" ++ c.html_url ++ ")\n") :: out))

/-- export_to_markdown: title and summary writes followed by the detailed
section; each write is one chunk. -/
def export_to_markdown (commits : List Commit) (repo_commit_count : List (String × Nat))
    (start_date end_date : String) : Except String (List MdChunk) :=
  match export_to_markdown_go none commits with
  | .error e => .error e
  | .ok detail =>
    .ok ((MdChunk.text "# GitHub Commits Report\n\n" ::
      MdChunk.text ("**Period:** " ++ start_date ++ " to " ++ end_date ++ "\n\n") ::
      MdChunk.text ("**Total Commits:** " ++ toString commits.length ++ "\n\n") ::
      MdChunk.text ("**Repositories:** " ++ toString repo_commit_count.length ++ "\n\n") ::
      MdChunk.text "## Summary by Repository\n\n" ::
      (sortCountsDesc repo_commit_count).map
        (fun p => MdChunk.text ("- **" ++ p.1 ++ "**: " ++ toString p.2 ++ " commits\n"))) ++
      (MdChunk.text "\n---\n\n## Detailed Commits\n\n" :: detail))

/-- validate_token: one call to the identity endpoint; 200 succeeds with the
login, 401 fails with the invalid-token reason, anything else fails with a
reason embedding the status code. -/
def validate_token (r : UserResponse) : Bool × String :=
  if r.status = 200 then (true, r.login)
  else if r.status = 401 then (false, "Invalid token")
  else (false, "Error: " ++ toString r.status)

/-- Console and file-writing milestones of a run. -/
inductive Out
  | banner
  | configError
  | authError (msg : String)
  | authenticated (login : String)
  | usage
  | dateError
  | displayed (chunks : List String)
  | exportMenu
  | invalidChoice
  | csvFile (name : String)
  | mdFile (name : String)
  | crash (msg : String)
  | doneMsg
deriving Repr, DecidableEq

/-- Export-menu loop: consume stripped input choices until a valid one;
running out of input is an EOFError crash. -/
def menuLoop (commits : List Commit) (counts : List (String × Nat))
    (start_date end_date : String) : List String → Except String (List Out)
  | [] => .error "EOFError"
  | choice0 :: rest =>
    let choice := choice0.trim
    if choice = "1" then
      match export_to_csv commits with
      | .error e => .error e
      | .ok _ => .ok [.csvFile ("commits_" ++ start_date ++ "_to_" ++ end_date ++ ".csv")]
    else if choice = "2" then
      match export_to_markdown commits counts start_date end_date with
      | .error e => .error e
      | .ok _ => .ok [.mdFile ("commits_" ++ start_date ++ "_to_" ++ end_date ++ ".md")]
    else if choice = "3" then
      match export_to_csv commits with
      | .error e => .error e
      | .ok _ =>
        match export_to_markdown commits counts start_date end_date with
        | .error e => .error e
        | .ok _ =>
          .ok [.csvFile ("commits_" ++ start_date ++ "_to_" ++ end_date ++ ".csv"),
            .mdFile ("commits_" ++ start_date ++ "_to_" ++ end_date ++ ".md")]
    else if choice = "4" then .ok []
    else
      match menuLoop commits counts start_date end_date rest with
      | .error e => .error e
      | .ok outs => .ok (.invalidChoice :: outs)

/-- main: configuration check, token validation (one network call), argument
count check, date format check, fetch, display, optional export menu.
Returns the exit code, the ordered HTTP calls and the output milestones.
An uncaught exception exits nonzero with a crash record. -/
def mainRun (token username : Option String) (argv : List String)
    (userResp : UserResponse) (fetchRepos : Nat → Response Repo)
    (fetchCommits : CommitQuery → Nat → Response Commit)
    (stdin : List String) (fuel : Nat) : Nat × List Call × List Out :=
  if token.getD "" = "" ∨ username.getD "" = "" then
    (1, [], [.banner, .configError])
  else
    let vr := validate_token userResp
    if vr.1 = false then
      (1, [.user], [.banner, .authError vr.2])
    else if argv.length ≠ 3 then
      (1, [.user], [.banner, .authenticated vr.2, .usage])
    else
      let start_date := argv.getD 1 ""
      let end_date := argv.getD 2 ""
      if (strptimeDate start_date).isNone ∨ (strptimeDate end_date).isNone then
        (1, [.user], [.banner, .authenticated vr.2, .dateError])
      else
        let r := fetch_all_commits fetchRepos fetchCommits (username.getD "")
          start_date end_date fuel
        let calls := Call.user :: r.2.2
        match display_commits r.1 r.2.1 with
        | .error e => (1, calls, [.banner, .authenticated vr.2, .crash e])
        | .ok disp =>
          if r.1 = [] then
            (0, calls, [.banner, .authenticated vr.2, .displayed disp, .doneMsg])
          else
            match menuLoop r.1 r.2.1 start_date end_date stdin with
            | .error e =>
              (1, calls, [.banner, .authenticated vr.2, .displayed disp, .exportMenu, .crash e])
            | .ok menuOuts =>
              (0, calls, ([.banner, .authenticated vr.2, .displayed disp, .exportMenu] ++
                menuOuts) ++ [.doneMsg])

/-- Number of maximal contiguous runs in a list after the given current
element. -/
def runsCountFrom (cur : String) : List String → Nat
  | [] => 0
  | a :: rest => (if a = cur then 0 else 1) + runsCountFrom a rest

/-- Number of maximal contiguous runs of equal elements. -/
def runsCount : List String → Nat
  | [] => 0
  | a :: rest => 1 + runsCountFrom a rest

/-- Heading test on a Markdown write. -/
def isHeading : MdChunk → Bool
  | .repoHeading _ => true
  | .text _ => false

/-- Number of repository headings among the Markdown writes. -/
def countHeadings (l : List MdChunk) : Nat := (l.filter isHeading).length

/-- Repository name recorded on a tagged commit (empty for an untagged one). -/
def repoNameOf (c : Commit) : String := (c.repository.map RepoTag.full_name).getD ""

/-- The commit query that get_commits_from_repo builds for a repository. -/
def queryOf (username repo_full_name start_date end_date : String) : CommitQuery :=
  ⟨repo_full_name, username, start_date ++ "T00:00:00Z", end_date ++ "T23:59:59Z"⟩

/-- Commits that get_commits_from_repo collects for one repository. -/
def commitsOf (fetchCommits : CommitQuery → Nat → Response Commit)
    (username start_date end_date : String) (fuel : Nat) (rp : Repo) : List Commit :=
  (get_commits_from_repo fetchCommits username rp.full_name start_date end_date fuel).1

/-- Commit-page requests that get_commits_from_repo issues for one repository. -/
def commitCallsOf (fetchCommits : CommitQuery → Nat → Response Commit)
    (username start_date end_date : String) (fuel : Nat) (rp : Repo) : List Call :=
  (get_commits_from_repo fetchCommits username rp.full_name start_date end_date fuel).2

/-- Attachment of the repository back-reference performed inside
fetch_all_commits. -/
def tagCommit (rp : Repo) (c : Commit) : Commit :=
  { c with repository := some ⟨rp.full_name, rp.isPrivate, rp.html_url⟩ }

/-- Tagged commit list contributed by one repository. -/
def taggedOf (fetchCommits : CommitQuery → Nat → Response Commit)
    (username start_date end_date : String) (fuel : Nat) (rp : Repo) : List Commit :=
  (commitsOf fetchCommits username start_date end_date fuel rp).map (tagCommit rp)

/-- Count-accumulation step of the fetch_all_commits loop, in isolation. -/
def countStep (f : Repo → List Commit) (m : List (String × Nat)) (rp : Repo) :
    List (String × Nat) :=
  if f rp ≠ [] then dictSet m rp.full_name (f rp).length else m

/-- Oracle serving a fixed list of repository pages, all with status 200:
page n answers the nth list, empty beyond the end. -/
def pagesOracleRepos (ps : List (List Repo)) : Nat → Response Repo :=
  fun n => ⟨200, ps.getD (n - 1) []⟩

/-- Oracle serving a fixed list of commit pages for every query, all with
status 200: page n answers the nth list, empty beyond the end. -/
def pagesOracleCommits (ps : List (List Commit)) : CommitQuery → Nat → Response Commit :=
  fun _ n => ⟨200, ps.getD (n - 1) []⟩

/-- Sample repository oracle: one page holding two repositories. -/
def sampleRepoOracle : Nat → Response Repo :=
  fun p => if p = 1 then ⟨200, [⟨"alice/a", false, "urlA"⟩, ⟨"alice/b", true, "urlB"⟩]⟩
    else ⟨200, []⟩

/-- Sample commit oracle: one commit per repository, the commit of alice/b
dated later than the commit of alice/a. -/
def sampleCommitOracle : CommitQuery → Nat → Response Commit :=
  fun q p =>
    if p = 1 then
      if q.repo_full_name = "alice/a" then
        ⟨200, [⟨"aaaaaaaaaa", "msgA", "2024-01-10T00:00:00Z", "uA", none⟩]⟩
      else ⟨200, [⟨"bbbbbbbbbb", "msgB", "2024-01-20T00:00:00Z", "uB", none⟩]⟩
    else ⟨200, []⟩

/-- Sample tagged commit list with interleaved repositories (two runs of
repo r/a around one of r/b). -/
def sampleTagged : List Commit :=
  [⟨"aaaaaaaaaa", "m1", "2024-01-30T00:00:00Z", "u1", some ⟨"r/a", false, "ua"⟩⟩,
   ⟨"bbbbbbbbbb", "m2", "2024-01-20T00:00:00Z", "u2", some ⟨"r/b", true, "ub"⟩⟩,
   ⟨"cccccccccc", "m3", "2024-01-10T00:00:00Z", "u3", some ⟨"r/a", false, "ua"⟩⟩]

/-- Default-tag view of a commit's CSV row (the commits to which it is
applied always carry a tag). -/
def csvRowOf (c : Commit) : List String := csvRow c ((c.repository).getD ⟨"", false, ""⟩)

/-- Sample commit oracle that rejects every request with status 404. -/
def sampleErrCommitOracle : CommitQuery → Nat → Response Commit := fun _ _ => ⟨404, []⟩

/-- Repository oracle answering an empty first page: no repositories. -/
def emptyRepoOracle : Nat → Response Repo := fun _ => ⟨200, []⟩

/-- Number of maximal runs in a name list relative to an optional current
repository (the Markdown loop's tracked state). -/
def runsCountOpt (cur : Option String) : List String → Nat
  | [] => 0
  | a :: rest => (if some a = cur then 0 else 1) + runsCountFrom a rest

theorem strLe_total (l m : List Char) : strLe l m = true ∨ strLe m l = true := by
  induction l generalizing m with
  | nil => left; rfl
  | cons a as ih =>
    cases m with
    | nil => right; rfl
    | cons b bs =>
      simp only [strLe, Bool.or_eq_true, Bool.and_eq_true, decide_eq_true_eq]
      rcases Nat.lt_trichotomy a.val.toNat b.val.toNat with h | h | h
      · exact Or.inl (Or.inl h)
      · rcases ih bs with h1 | h1
        · exact Or.inl (Or.inr ⟨h, h1⟩)
        · exact Or.inr (Or.inr ⟨h.symm, h1⟩)
      · exact Or.inr (Or.inl h)

theorem strLe_trans (l m k : List Char) (h1 : strLe l m = true) (h2 : strLe m k = true) :
    strLe l k = true := by
  induction l generalizing m k with
  | nil => rfl
  | cons a as ih =>
    cases m with
    | nil => simp [strLe] at h1
    | cons b bs =>
      cases k with
      | nil => simp [strLe] at h2
      | cons c cs =>
        simp only [strLe, Bool.or_eq_true, Bool.and_eq_true, decide_eq_true_eq] at h1 h2 ⊢
        rcases h1 with h1 | ⟨h1e, h1r⟩
        · rcases h2 with h2 | ⟨h2e, h2r⟩
          · exact Or.inl (by omega)
          · exact Or.inl (by omega)
        · rcases h2 with h2 | ⟨h2e, h2r⟩
          · exact Or.inl (by omega)
          · exact Or.inr ⟨by omega, ih bs cs h1r h2r⟩

theorem isDigitCh_iff (c : Char) :
    isDigitCh c = true ↔ 48 ≤ c.val.toNat ∧ c.val.toNat ≤ 57 := by
  simp [isDigitCh]

/-- Composition step for the lexicographic/numeric correspondence: prepending
one digit character to both strings multiplies the numeric key weight. -/
theorem strLe_step {a b : Char} {l m : List Char} {ka kb W : Nat}
    (hda : 48 ≤ a.val.toNat ∧ a.val.toNat ≤ 57)
    (hdb : 48 ≤ b.val.toNat ∧ b.val.toNat ≤ 57)
    (hka : ka < W) (hkb : kb < W)
    (hIH : strLe l m = true ↔ ka ≤ kb) :
    strLe (a :: l) (b :: m) = true ↔ dv a * W + ka ≤ dv b * W + kb := by
  simp only [strLe, Bool.or_eq_true, Bool.and_eq_true, decide_eq_true_eq, hIH, dv]
  constructor
  · rintro (h | ⟨h, h2⟩)
    · have h3 : a.val.toNat - 48 + 1 ≤ b.val.toNat - 48 := by omega
      have h4 : (a.val.toNat - 48 + 1) * W ≤ (b.val.toNat - 48) * W :=
        Nat.mul_le_mul_right _ h3
      rw [Nat.succ_mul] at h4
      omega
    · rw [h]; omega
  · intro h
    rcases Nat.lt_trichotomy a.val.toNat b.val.toNat with h1 | h1 | h1
    · exact Or.inl h1
    · refine Or.inr ⟨h1, ?_⟩
      have h2 : a.val.toNat - 48 = b.val.toNat - 48 := by omega
      rw [h2] at h
      omega
    · exfalso
      have h3 : b.val.toNat - 48 + 1 ≤ a.val.toNat - 48 := by omega
      have h4 : (b.val.toNat - 48 + 1) * W ≤ (a.val.toNat - 48) * W :=
        Nat.mul_le_mul_right _ h3
      rw [Nat.succ_mul] at h4
      omega

/-- Prepending the same character to both strings does not change the
comparison. -/
theorem strLe_sep (c : Char) (l m : List Char) : strLe (c :: l) (c :: m) = strLe l m := by
  simp [strLe]

set_option maxHeartbeats 1000000 in
/-- On strings that both match the fixed timestamp format, code-point
lexicographic string order coincides with chronological order of the parsed
timestamps. -/
theorem strLe_iff_chronoLe (s t : List Char) (u v : Timestamp)
    (hs : parseChars s = some u) (ht : parseChars t = some v) :
    strLe s t = true ↔ chronoLe u v = true := by
  unfold parseChars at hs
  split at hs
  case h_2 => exact absurd hs (by simp)
  case h_1 y1 y2 y3 y4 p1 o1 o2 p2 d1 d2 p3 h1 h2 p4 n1 n2 p5 e1 e2 p6 =>
    unfold parseChars at ht
    split at ht
    case h_2 => exact absurd ht (by simp)
    case h_1 z1 z2 z3 z4 q1 w1 w2 q2 f1 f2 q3 g1 g2 q4 m1 m2 q5 r1 r2 q6 =>
      split at hs
      case isFalse => exact absurd hs (by simp)
      case isTrue hps =>
        split at ht
        case isFalse => exact absurd ht (by simp)
        case isTrue hpt =>
          injection hs with hs
          injection ht with ht
          subst hs; subst ht
          obtain ⟨hy1, hy2, hy3, hy4, hp1, ho1, ho2, hp2, hd1, hd2, hp3,
            hh1, hh2, hp4, hn1, hn2, hp5, he1, he2, hp6, _⟩ := hps
          obtain ⟨hz1, hz2, hz3, hz4, hq1, hw1, hw2, hq2, hf1, hf2, hq3,
            hg1, hg2, hq4, hm1, hm2, hq5, hr1, hr2, hq6, _⟩ := hpt
          subst hp1 hp2 hp3 hp4 hp5 hp6 hq1 hq2 hq3 hq4 hq5 hq6
          rw [isDigitCh_iff] at hy1 hy2 hy3 hy4 ho1 ho2 hd1 hd2 hh1 hh2 hn1 hn2 he1 he2
          rw [isDigitCh_iff] at hz1 hz2 hz3 hz4 hw1 hw2 hf1 hf2 hg1 hg2 hm1 hm2 hr1 hr2
          have c00 : strLe [] [] = true ↔ (0 : Nat) ≤ 0 := by simp [strLe]
          have c0 : strLe ['Z'] ['Z'] = true ↔ (0 : Nat) ≤ 0 := by
            rw [strLe_sep]; exact c00
          have c1 : strLe [e2, 'Z'] [r2, 'Z'] = true ↔
              dv e2 * 1 + 0 ≤ dv r2 * 1 + 0 :=
            strLe_step he2 hr2 (by omega) (by omega) c0
          have c2 : strLe [e1, e2, 'Z'] [r1, r2, 'Z'] = true ↔
              dv e1 * 10 + (dv e2 * 1 + 0) ≤ dv r1 * 10 + (dv r2 * 1 + 0) :=
            strLe_step he1 hr1 (by simp only [dv]; omega) (by simp only [dv]; omega) c1
          have c3 : strLe (':' :: [e1, e2, 'Z']) (':' :: [r1, r2, 'Z']) = true ↔
              dv e1 * 10 + (dv e2 * 1 + 0) ≤ dv r1 * 10 + (dv r2 * 1 + 0) := by
            rw [strLe_sep]; exact c2
          have c4 : strLe (n2 :: ':' :: [e1, e2, 'Z']) (m2 :: ':' :: [r1, r2, 'Z']) = true ↔
              dv n2 * 100 + (dv e1 * 10 + (dv e2 * 1 + 0)) ≤
                dv m2 * 100 + (dv r1 * 10 + (dv r2 * 1 + 0)) :=
            strLe_step hn2 hm2 (by simp only [dv]; omega) (by simp only [dv]; omega) c3
          have c5 : strLe (n1 :: n2 :: ':' :: [e1, e2, 'Z'])
              (m1 :: m2 :: ':' :: [r1, r2, 'Z']) = true ↔
              dv n1 * 1000 + (dv n2 * 100 + (dv e1 * 10 + (dv e2 * 1 + 0))) ≤
                dv m1 * 1000 + (dv m2 * 100 + (dv r1 * 10 + (dv r2 * 1 + 0))) :=
            strLe_step hn1 hm1 (by simp only [dv]; omega) (by simp only [dv]; omega) c4
          have c6 : strLe (':' :: n1 :: n2 :: ':' :: [e1, e2, 'Z'])
              (':' :: m1 :: m2 :: ':' :: [r1, r2, 'Z']) = true ↔
              dv n1 * 1000 + (dv n2 * 100 + (dv e1 * 10 + (dv e2 * 1 + 0))) ≤
                dv m1 * 1000 + (dv m2 * 100 + (dv r1 * 10 + (dv r2 * 1 + 0))) := by
            rw [strLe_sep]; exact c5
          have c7 : strLe (h2 :: ':' :: n1 :: n2 :: ':' :: [e1, e2, 'Z'])
              (g2 :: ':' :: m1 :: m2 :: ':' :: [r1, r2, 'Z']) = true ↔
              dv h2 * 10000 + (dv n1 * 1000 + (dv n2 * 100 + (dv e1 * 10 + (dv e2 * 1 + 0)))) ≤
                dv g2 * 10000 +
                  (dv m1 * 1000 + (dv m2 * 100 + (dv r1 * 10 + (dv r2 * 1 + 0)))) :=
            strLe_step hh2 hg2 (by simp only [dv]; omega) (by simp only [dv]; omega) c6
          have c8 : strLe (h1 :: h2 :: ':' :: n1 :: n2 :: ':' :: [e1, e2, 'Z'])
              (g1 :: g2 :: ':' :: m1 :: m2 :: ':' :: [r1, r2, 'Z']) = true ↔
              dv h1 * 100000 + (dv h2 * 10000 +
                (dv n1 * 1000 + (dv n2 * 100 + (dv e1 * 10 + (dv e2 * 1 + 0))))) ≤
                dv g1 * 100000 + (dv g2 * 10000 +
                  (dv m1 * 1000 + (dv m2 * 100 + (dv r1 * 10 + (dv r2 * 1 + 0))))) :=
            strLe_step hh1 hg1 (by simp only [dv]; omega) (by simp only [dv]; omega) c7
          have c9 : strLe ('T' :: h1 :: h2 :: ':' :: n1 :: n2 :: ':' :: [e1, e2, 'Z'])
              ('T' :: g1 :: g2 :: ':' :: m1 :: m2 :: ':' :: [r1, r2, 'Z']) = true ↔
              dv h1 * 100000 + (dv h2 * 10000 +
                (dv n1 * 1000 + (dv n2 * 100 + (dv e1 * 10 + (dv e2 * 1 + 0))))) ≤
                dv g1 * 100000 + (dv g2 * 10000 +
                  (dv m1 * 1000 + (dv m2 * 100 + (dv r1 * 10 + (dv r2 * 1 + 0))))) := by
            rw [strLe_sep]; exact c8
          have c10 : strLe (d2 :: 'T' :: h1 :: h2 :: ':' :: n1 :: n2 :: ':' :: [e1, e2, 'Z'])
              (f2 :: 'T' :: g1 :: g2 :: ':' :: m1 :: m2 :: ':' :: [r1, r2, 'Z']) = true ↔
              dv d2 * 1000000 + (dv h1 * 100000 + (dv h2 * 10000 +
                (dv n1 * 1000 + (dv n2 * 100 + (dv e1 * 10 + (dv e2 * 1 + 0)))))) ≤
                dv f2 * 1000000 + (dv g1 * 100000 + (dv g2 * 10000 +
                  (dv m1 * 1000 + (dv m2 * 100 + (dv r1 * 10 + (dv r2 * 1 + 0)))))) :=
            strLe_step hd2 hf2 (by simp only [dv]; omega) (by simp only [dv]; omega) c9
          have c11 : strLe
              (d1 :: d2 :: 'T' :: h1 :: h2 :: ':' :: n1 :: n2 :: ':' :: [e1, e2, 'Z'])
              (f1 :: f2 :: 'T' :: g1 :: g2 :: ':' :: m1 :: m2 :: ':' :: [r1, r2, 'Z']) = true ↔
              dv d1 * 10000000 + (dv d2 * 1000000 + (dv h1 * 100000 + (dv h2 * 10000 +
                (dv n1 * 1000 + (dv n2 * 100 + (dv e1 * 10 + (dv e2 * 1 + 0))))))) ≤
                dv f1 * 10000000 + (dv f2 * 1000000 + (dv g1 * 100000 + (dv g2 * 10000 +
                  (dv m1 * 1000 + (dv m2 * 100 + (dv r1 * 10 + (dv r2 * 1 + 0))))))) :=
            strLe_step hd1 hf1 (by simp only [dv]; omega) (by simp only [dv]; omega) c10
          have c12 : strLe
              ('-' :: d1 :: d2 :: 'T' :: h1 :: h2 :: ':' :: n1 :: n2 :: ':' :: [e1, e2, 'Z'])
              ('-' :: f1 :: f2 :: 'T' :: g1 :: g2 :: ':' :: m1 :: m2 :: ':' :: [r1, r2, 'Z']) =
                true ↔
              dv d1 * 10000000 + (dv d2 * 1000000 + (dv h1 * 100000 + (dv h2 * 10000 +
                (dv n1 * 1000 + (dv n2 * 100 + (dv e1 * 10 + (dv e2 * 1 + 0))))))) ≤
                dv f1 * 10000000 + (dv f2 * 1000000 + (dv g1 * 100000 + (dv g2 * 10000 +
                  (dv m1 * 1000 + (dv m2 * 100 + (dv r1 * 10 + (dv r2 * 1 + 0))))))) := by
            rw [strLe_sep]; exact c11
          have c13 : strLe
              (o2 :: '-' :: d1 :: d2 :: 'T' :: h1 :: h2 :: ':' :: n1 :: n2 :: ':'
                :: [e1, e2, 'Z'])
              (w2 :: '-' :: f1 :: f2 :: 'T' :: g1 :: g2 :: ':' :: m1 :: m2 :: ':'
                :: [r1, r2, 'Z']) = true ↔
              dv o2 * 100000000 + (dv d1 * 10000000 + (dv d2 * 1000000 +
                (dv h1 * 100000 + (dv h2 * 10000 + (dv n1 * 1000 + (dv n2 * 100 +
                  (dv e1 * 10 + (dv e2 * 1 + 0)))))))) ≤
                dv w2 * 100000000 + (dv f1 * 10000000 + (dv f2 * 1000000 +
                  (dv g1 * 100000 + (dv g2 * 10000 + (dv m1 * 1000 + (dv m2 * 100 +
                    (dv r1 * 10 + (dv r2 * 1 + 0)))))))) :=
            strLe_step ho2 hw2 (by simp only [dv]; omega) (by simp only [dv]; omega) c12
          have c14 : strLe
              (o1 :: o2 :: '-' :: d1 :: d2 :: 'T' :: h1 :: h2 :: ':' :: n1 :: n2 :: ':'
                :: [e1, e2, 'Z'])
              (w1 :: w2 :: '-' :: f1 :: f2 :: 'T' :: g1 :: g2 :: ':' :: m1 :: m2 :: ':'
                :: [r1, r2, 'Z']) = true ↔
              dv o1 * 1000000000 + (dv o2 * 100000000 + (dv d1 * 10000000 +
                (dv d2 * 1000000 + (dv h1 * 100000 + (dv h2 * 10000 + (dv n1 * 1000 +
                  (dv n2 * 100 + (dv e1 * 10 + (dv e2 * 1 + 0))))))))) ≤
                dv w1 * 1000000000 + (dv w2 * 100000000 + (dv f1 * 10000000 +
                  (dv f2 * 1000000 + (dv g1 * 100000 + (dv g2 * 10000 + (dv m1 * 1000 +
                    (dv m2 * 100 + (dv r1 * 10 + (dv r2 * 1 + 0))))))))) :=
            strLe_step ho1 hw1 (by simp only [dv]; omega) (by simp only [dv]; omega) c13
          have c15 : strLe
              ('-' :: o1 :: o2 :: '-' :: d1 :: d2 :: 'T' :: h1 :: h2 :: ':' :: n1 :: n2 :: ':'
                :: [e1, e2, 'Z'])
              ('-' :: w1 :: w2 :: '-' :: f1 :: f2 :: 'T' :: g1 :: g2 :: ':' :: m1 :: m2 :: ':'
                :: [r1, r2, 'Z']) = true ↔
              dv o1 * 1000000000 + (dv o2 * 100000000 + (dv d1 * 10000000 +
                (dv d2 * 1000000 + (dv h1 * 100000 + (dv h2 * 10000 + (dv n1 * 1000 +
                  (dv n2 * 100 + (dv e1 * 10 + (dv e2 * 1 + 0))))))))) ≤
                dv w1 * 1000000000 + (dv w2 * 100000000 + (dv f1 * 10000000 +
                  (dv f2 * 1000000 + (dv g1 * 100000 + (dv g2 * 10000 + (dv m1 * 1000 +
                    (dv m2 * 100 + (dv r1 * 10 + (dv r2 * 1 + 0))))))))) := by
            rw [strLe_sep]; exact c14
          have c16 : strLe
              (y4 :: '-' :: o1 :: o2 :: '-' :: d1 :: d2 :: 'T' :: h1 :: h2 :: ':'
                :: n1 :: n2 :: ':' :: [e1, e2, 'Z'])
              (z4 :: '-' :: w1 :: w2 :: '-' :: f1 :: f2 :: 'T' :: g1 :: g2 :: ':'
                :: m1 :: m2 :: ':' :: [r1, r2, 'Z']) = true ↔
              dv y4 * 10000000000 + (dv o1 * 1000000000 + (dv o2 * 100000000 +
                (dv d1 * 10000000 + (dv d2 * 1000000 + (dv h1 * 100000 + (dv h2 * 10000 +
                  (dv n1 * 1000 + (dv n2 * 100 + (dv e1 * 10 + (dv e2 * 1 + 0)))))))))) ≤
                dv z4 * 10000000000 + (dv w1 * 1000000000 + (dv w2 * 100000000 +
                  (dv f1 * 10000000 + (dv f2 * 1000000 + (dv g1 * 100000 + (dv g2 * 10000 +
                    (dv m1 * 1000 + (dv m2 * 100 + (dv r1 * 10 + (dv r2 * 1 + 0)))))))))) :=
            strLe_step hy4 hz4 (by simp only [dv]; omega) (by simp only [dv]; omega) c15
          have c17 : strLe
              (y3 :: y4 :: '-' :: o1 :: o2 :: '-' :: d1 :: d2 :: 'T' :: h1 :: h2 :: ':'
                :: n1 :: n2 :: ':' :: [e1, e2, 'Z'])
              (z3 :: z4 :: '-' :: w1 :: w2 :: '-' :: f1 :: f2 :: 'T' :: g1 :: g2 :: ':'
                :: m1 :: m2 :: ':' :: [r1, r2, 'Z']) = true ↔
              dv y3 * 100000000000 + (dv y4 * 10000000000 + (dv o1 * 1000000000 +
                (dv o2 * 100000000 + (dv d1 * 10000000 + (dv d2 * 1000000 +
                  (dv h1 * 100000 + (dv h2 * 10000 + (dv n1 * 1000 + (dv n2 * 100 +
                    (dv e1 * 10 + (dv e2 * 1 + 0))))))))))) ≤
                dv z3 * 100000000000 + (dv z4 * 10000000000 + (dv w1 * 1000000000 +
                  (dv w2 * 100000000 + (dv f1 * 10000000 + (dv f2 * 1000000 +
                    (dv g1 * 100000 + (dv g2 * 10000 + (dv m1 * 1000 + (dv m2 * 100 +
                      (dv r1 * 10 + (dv r2 * 1 + 0))))))))))) :=
            strLe_step hy3 hz3 (by simp only [dv]; omega) (by simp only [dv]; omega) c16
          have c18 : strLe
              (y2 :: y3 :: y4 :: '-' :: o1 :: o2 :: '-' :: d1 :: d2 :: 'T' :: h1 :: h2 :: ':'
                :: n1 :: n2 :: ':' :: [e1, e2, 'Z'])
              (z2 :: z3 :: z4 :: '-' :: w1 :: w2 :: '-' :: f1 :: f2 :: 'T' :: g1 :: g2 :: ':'
                :: m1 :: m2 :: ':' :: [r1, r2, 'Z']) = true ↔
              dv y2 * 1000000000000 + (dv y3 * 100000000000 + (dv y4 * 10000000000 +
                (dv o1 * 1000000000 + (dv o2 * 100000000 + (dv d1 * 10000000 +
                  (dv d2 * 1000000 + (dv h1 * 100000 + (dv h2 * 10000 + (dv n1 * 1000 +
                    (dv n2 * 100 + (dv e1 * 10 + (dv e2 * 1 + 0)))))))))))) ≤
                dv z2 * 1000000000000 + (dv z3 * 100000000000 + (dv z4 * 10000000000 +
                  (dv w1 * 1000000000 + (dv w2 * 100000000 + (dv f1 * 10000000 +
                    (dv f2 * 1000000 + (dv g1 * 100000 + (dv g2 * 10000 + (dv m1 * 1000 +
                      (dv m2 * 100 + (dv r1 * 10 + (dv r2 * 1 + 0)))))))))))) :=
            strLe_step hy2 hz2 (by simp only [dv]; omega) (by simp only [dv]; omega) c17
          have c19 : strLe
              (y1 :: y2 :: y3 :: y4 :: '-' :: o1 :: o2 :: '-' :: d1 :: d2 :: 'T'
                :: h1 :: h2 :: ':' :: n1 :: n2 :: ':' :: [e1, e2, 'Z'])
              (z1 :: z2 :: z3 :: z4 :: '-' :: w1 :: w2 :: '-' :: f1 :: f2 :: 'T'
                :: g1 :: g2 :: ':' :: m1 :: m2 :: ':' :: [r1, r2, 'Z']) = true ↔
              dv y1 * 10000000000000 + (dv y2 * 1000000000000 + (dv y3 * 100000000000 +
                (dv y4 * 10000000000 + (dv o1 * 1000000000 + (dv o2 * 100000000 +
                  (dv d1 * 10000000 + (dv d2 * 1000000 + (dv h1 * 100000 + (dv h2 * 10000 +
                    (dv n1 * 1000 + (dv n2 * 100 + (dv e1 * 10 + (dv e2 * 1 + 0))))))))))))) ≤
                dv z1 * 10000000000000 + (dv z2 * 1000000000000 + (dv z3 * 100000000000 +
                  (dv z4 * 10000000000 + (dv w1 * 1000000000 + (dv w2 * 100000000 +
                    (dv f1 * 10000000 + (dv f2 * 1000000 + (dv g1 * 100000 + (dv g2 * 10000 +
                      (dv m1 * 1000 + (dv m2 * 100 + (dv r1 * 10 +
                        (dv r2 * 1 + 0))))))))))))) :=
            strLe_step hy1 hz1 (by simp only [dv]; omega) (by simp only [dv]; omega) c18
          rw [show ([y1, y2, y3, y4, '-', o1, o2, '-', d1, d2, 'T', h1, h2, ':',
            n1, n2, ':', e1, e2, 'Z'] : List Char) =
            y1 :: y2 :: y3 :: y4 :: '-' :: o1 :: o2 :: '-' :: d1 :: d2 :: 'T'
              :: h1 :: h2 :: ':' :: n1 :: n2 :: ':' :: [e1, e2, 'Z'] from rfl]
          rw [show ([z1, z2, z3, z4, '-', w1, w2, '-', f1, f2, 'T', g1, g2, ':',
            m1, m2, ':', r1, r2, 'Z'] : List Char) =
            z1 :: z2 :: z3 :: z4 :: '-' :: w1 :: w2 :: '-' :: f1 :: f2 :: 'T'
              :: g1 :: g2 :: ':' :: m1 :: m2 :: ':' :: [r1, r2, 'Z'] from rfl]
          rw [c19]
          simp only [chronoLe, chronoKey, decide_eq_true_eq]
          omega

/-- C5: validate_token succeeds exactly when the identity endpoint answers
HTTP 200, with the identity equal to the returned login; HTTP 401 yields
failure with reason "Invalid token"; any other status yields failure with a
reason embedding the status code; and a run whose token is rejected with 401
prints the invalid-token error, exits with code 1, and issues no repository
or commit request (the identity request is the only call). -/
theorem claim_C5 (r : UserResponse) (token username : String)
    (htok : token ≠ "") (husr : username ≠ "") (argv stdin : List String)
    (fetchRepos : Nat → Response Repo) (fetchCommits : CommitQuery → Nat → Response Commit)
    (fuel : Nat) :
    ((validate_token r).1 = true ↔ r.status = 200) ∧
    (r.status = 200 → validate_token r = (true, r.login)) ∧
    (r.status = 401 → validate_token r = (false, "Invalid token")) ∧
    (r.status ≠ 200 → r.status ≠ 401 →
      validate_token r = (false, "Error: " ++ toString r.status)) ∧
    (r.status = 401 →
      mainRun (some token) (some username) argv r fetchRepos fetchCommits stdin fuel =
        (1, [Call.user], [Out.banner, Out.authError "Invalid token"])) := by
  by_cases h1 : r.status = 200
  · refine ⟨by simp [validate_token, h1], fun _ => by simp [validate_token, h1],
      fun h2 => absurd (h1.symm.trans h2) (by decide), fun h2 _ => absurd h1 h2,
      fun h2 => absurd (h1.symm.trans h2) (by decide)⟩
  · by_cases h2 : r.status = 401
    · have hval : validate_token r = (false, "Invalid token") := by
        simp [validate_token, h1, h2]
      refine ⟨by simp [hval, h1], fun h => absurd h h1, fun _ => hval,
        fun _ h => absurd h2 h, fun _ => ?_⟩
      simp [mainRun, hval, htok, husr]
    · have hval : validate_token r = (false, "Error: " ++ toString r.status) := by
        simp [validate_token, h1, h2]
      exact ⟨by simp [hval, h1], fun h => absurd h h1, fun h => absurd h h2,
        fun _ _ => hval, fun h => absurd h h2⟩

/-- Witness for C5 at a concrete 401 rejection. -/
theorem claim_C5_witness :
    ("tok" : String) ≠ "" ∧ ("alice" : String) ≠ "" ∧
    (UserResponse.mk 401 "").status = 401 ∧
    mainRun (some "tok") (some "alice") ["fetch_commits.py", "2024-01-01", "2024-01-31"]
        ⟨401, ""⟩ sampleRepoOracle sampleCommitOracle [] 10 =
      (1, [Call.user], [Out.banner, Out.authError "Invalid token"]) :=
  ⟨by decide, by decide, rfl,
    (claim_C5 ⟨401, ""⟩ "tok" "alice" (by decide) (by decide)
      ["fetch_commits.py", "2024-01-01", "2024-01-31"] [] sampleRepoOracle
      sampleCommitOracle 10).2.2.2.2 rfl⟩

/-- C1 as stated fails on the code: with configuration present and a token
the identity endpoint accepts, an invocation with a wrong argument count
does exit nonzero with the usage message, but only after the
token-validation HTTP request has been issued, so the set of issued HTTP
requests is not empty. -/
theorem claim_C1_counterexample :
    mainRun (some "tok") (some "alice") ["fetch_commits.py"] ⟨200, "alice"⟩
        sampleRepoOracle sampleCommitOracle [] 10 =
      (1, [Call.user], [Out.banner, Out.authenticated "alice", Out.usage]) ∧
    ([Call.user] : List Call) ≠ [] := by
  exact ⟨by decide, by decide⟩

/-- C1 amended: for every invocation with configuration present and a token
the identity endpoint accepts, a wrong argument count or a start or end date
that the script's strptime date parse rejects exits with code 1 and a usage
or date-format message before any repository or commit request: the single
token-validation request is the only network activity. -/
theorem claim_C1 (token username : String) (htok : token ≠ "") (husr : username ≠ "")
    (argv : List String) (r : UserResponse) (h200 : r.status = 200)
    (fetchRepos : Nat → Response Repo) (fetchCommits : CommitQuery → Nat → Response Commit)
    (stdin : List String) (fuel : Nat)
    (hbad : argv.length ≠ 3 ∨ (strptimeDate (argv.getD 1 "")).isNone ∨
      (strptimeDate (argv.getD 2 "")).isNone) :
    mainRun (some token) (some username) argv r fetchRepos fetchCommits stdin fuel =
      (1, [Call.user], [Out.banner, Out.authenticated r.login,
        if argv.length ≠ 3 then Out.usage else Out.dateError]) := by
  have hvt : validate_token r = (true, r.login) := by simp [validate_token, h200]
  by_cases h3 : argv.length = 3
  · have hdates : (strptimeDate (argv.getD 1 "")).isNone ∨
        (strptimeDate (argv.getD 2 "")).isNone := by
      rcases hbad with h | h
      · exact absurd h3 h
      · exact h
    rw [List.getD_eq_getElem argv "" (show 1 < argv.length by omega)] at hdates
    rw [List.getD_eq_getElem argv "" (show 2 < argv.length by omega)] at hdates
    rcases hdates with h | h <;> simp [mainRun, hvt, htok, husr, h3, h]
  · simp [mainRun, hvt, htok, husr, h3]

/-- Witness for the amended C1 at a concrete wrong-argument invocation. -/
theorem claim_C1_witness :
    ("tok" : String) ≠ "" ∧ ("alice" : String) ≠ "" ∧
    (UserResponse.mk 200 "alice").status = 200 ∧
    (["fetch_commits.py"].length ≠ 3 ∨
      (strptimeDate (["fetch_commits.py"].getD 1 "")).isNone ∨
      (strptimeDate (["fetch_commits.py"].getD 2 "")).isNone) ∧
    mainRun (some "tok") (some "alice") ["fetch_commits.py"] ⟨200, "alice"⟩
        sampleRepoOracle sampleCommitOracle [] 10 =
      (1, [Call.user], [Out.banner, Out.authenticated "alice",
        if (["fetch_commits.py"] : List String).length ≠ 3 then Out.usage else Out.dateError]) :=
  ⟨by decide, by decide, rfl, Or.inl (by decide),
    claim_C1 "tok" "alice" (by decide) (by decide) ["fetch_commits.py"] ⟨200, "alice"⟩ rfl
      sampleRepoOracle sampleCommitOracle [] 10 (Or.inl (by decide))⟩

/-- Repository pagination through a fixed page list: with every page full
until a final short or empty page, the loop accumulates all pages in
received order and requests exactly pages k, k+1, ... up to the short page,
none beyond. -/
theorem get_all_repositories_go_pages (f : Nat → Response Repo) (ps : List (List Repo))
    (k fuel : Nat) (acc : List Repo) (calls : List Call)
    (hne : ps ≠ [])
    (hoff : ∀ i, i < ps.length → f (k + i) = ⟨200, ps.getD i []⟩)
    (hfull : ∀ i, i + 1 < ps.length → (ps.getD i []).length = 100)
    (hlast : (ps.getD (ps.length - 1) []).length < 100)
    (hfuel : ps.length ≤ fuel) :
    get_all_repositories_go f fuel k acc calls =
      (acc ++ ps.flatten, calls ++ (List.range' k ps.length).map Call.repos) := by
  induction ps generalizing k fuel acc calls with
  | nil => exact absurd rfl hne
  | cons p ps ih =>
    cases fuel with
    | zero => simp at hfuel
    | succ fuel =>
      have hk : f k = ⟨200, p⟩ := by
        have h0 := hoff 0 (by simp)
        simpa using h0
      cases ps with
      | nil =>
        have hl : p.length < 100 := by simpa using hlast
        by_cases hp : p = []
        · subst hp
          simp [get_all_repositories_go, hk, List.range']
        · simp [get_all_repositories_go, hk, hp, hl, List.range']
      | cons p2 ps2 =>
        have hfl : p.length = 100 := by
          have h0 := hfull 0 (by simp)
          simpa using h0
        have hp : p ≠ [] := by
          intro h
          rw [h] at hfl
          simp at hfl
        have hrec := ih (k + 1) fuel (acc ++ p) (calls ++ [Call.repos k]) (by simp)
          (fun i hi => by
            have h0 := hoff (i + 1) (by simpa using hi)
            rw [show k + (i + 1) = k + 1 + i by omega] at h0
            simpa using h0)
          (fun i hi => by
            have h0 := hfull (i + 1) (by simpa using hi)
            simpa using h0)
          (by simpa using hlast)
          (by simp at hfuel ⊢; omega)
        simp only [get_all_repositories_go, hk, hfl]
        norm_num [hp]
        rw [hrec]
        simp [List.range'_succ]

/-- Commit pagination through a fixed page list, same statement as the
repository enumerator. -/
theorem get_commits_from_repo_go_pages (f : CommitQuery → Nat → Response Commit)
    (q : CommitQuery) (ps : List (List Commit))
    (k fuel : Nat) (acc : List Commit) (calls : List Call)
    (hne : ps ≠ [])
    (hoff : ∀ i, i < ps.length → f q (k + i) = ⟨200, ps.getD i []⟩)
    (hfull : ∀ i, i + 1 < ps.length → (ps.getD i []).length = 100)
    (hlast : (ps.getD (ps.length - 1) []).length < 100)
    (hfuel : ps.length ≤ fuel) :
    get_commits_from_repo_go f q fuel k acc calls =
      (acc ++ ps.flatten, calls ++ (List.range' k ps.length).map (Call.commits q)) := by
  induction ps generalizing k fuel acc calls with
  | nil => exact absurd rfl hne
  | cons p ps ih =>
    cases fuel with
    | zero => simp at hfuel
    | succ fuel =>
      have hk : f q k = ⟨200, p⟩ := by
        have h0 := hoff 0 (by simp)
        simpa using h0
      cases ps with
      | nil =>
        have hl : p.length < 100 := by simpa using hlast
        by_cases hp : p = []
        · subst hp
          simp [get_commits_from_repo_go, hk, List.range']
        · simp [get_commits_from_repo_go, hk, hp, hl, List.range']
      | cons p2 ps2 =>
        have hfl : p.length = 100 := by
          have h0 := hfull 0 (by simp)
          simpa using h0
        have hp : p ≠ [] := by
          intro h
          rw [h] at hfl
          simp at hfl
        have hrec := ih (k + 1) fuel (acc ++ p) (calls ++ [Call.commits q k]) (by simp)
          (fun i hi => by
            have h0 := hoff (i + 1) (by simpa using hi)
            rw [show k + (i + 1) = k + 1 + i by omega] at h0
            simpa using h0)
          (fun i hi => by
            have h0 := hfull (i + 1) (by simpa using hi)
            simpa using h0)
          (by simpa using hlast)
          (by simp at hfuel ⊢; omega)
        simp only [get_commits_from_repo_go, hk, hfl]
        norm_num [hp]
        rw [hrec]
        simp [List.range'_succ]

/-- C3: for every sequence of status-200 pages that are full until a final
short or empty page, both the repository enumerator and the per-repository
commit paginator return exactly the concatenation of all pages in received
order (hence as many items as the page sizes sum to) and request exactly
pages 1 through the first short or empty page, none beyond. -/
theorem claim_C3 (psR : List (List Repo)) (psC : List (List Commit))
    (username repo_full_name start_date end_date : String) (fuelR fuelC : Nat)
    (hneR : psR ≠ [])
    (hfullR : ∀ i, i + 1 < psR.length → (psR.getD i []).length = 100)
    (hlastR : (psR.getD (psR.length - 1) []).length < 100)
    (hfuelR : psR.length ≤ fuelR)
    (hneC : psC ≠ [])
    (hfullC : ∀ i, i + 1 < psC.length → (psC.getD i []).length = 100)
    (hlastC : (psC.getD (psC.length - 1) []).length < 100)
    (hfuelC : psC.length ≤ fuelC) :
    get_all_repositories (pagesOracleRepos psR) fuelR =
      (psR.flatten, (List.range' 1 psR.length).map Call.repos) ∧
    psR.flatten.length = (psR.map List.length).sum ∧
    get_commits_from_repo (pagesOracleCommits psC) username repo_full_name
        start_date end_date fuelC =
      (psC.flatten, (List.range' 1 psC.length).map
        (Call.commits (queryOf username repo_full_name start_date end_date))) ∧
    psC.flatten.length = (psC.map List.length).sum := by
  refine ⟨?_, List.length_flatten psR, ?_, List.length_flatten psC⟩
  · have h := get_all_repositories_go_pages (pagesOracleRepos psR) psR 1 fuelR [] []
      hneR (fun i hi => by simp [pagesOracleRepos]) hfullR hlastR hfuelR
    simpa [get_all_repositories] using h
  · have h := get_commits_from_repo_go_pages (pagesOracleCommits psC)
      (queryOf username repo_full_name start_date end_date) psC 1 fuelC [] []
      hneC (fun i hi => by simp [pagesOracleCommits]) hfullC hlastC hfuelC
    simpa [get_commits_from_repo, queryOf] using h

/-- Witness for C3: two repository pages (a full one of 100 entries and a
short one) and one short commit page. -/
theorem claim_C3_witness :
    (([List.replicate 100 (Repo.mk "alice/a" false "u"), [Repo.mk "alice/b" true "v"]] :
        List (List Repo)) ≠ []) ∧
    (([[Commit.mk "s" "m" "2024-01-10T00:00:00Z" "u" none]] : List (List Commit)) ≠ []) ∧
    get_all_repositories
        (pagesOracleRepos [List.replicate 100 (Repo.mk "alice/a" false "u"),
          [Repo.mk "alice/b" true "v"]]) 5 =
      (List.replicate 100 (Repo.mk "alice/a" false "u") ++ [Repo.mk "alice/b" true "v"],
        [Call.repos 1, Call.repos 2]) ∧
    get_commits_from_repo
        (pagesOracleCommits [[Commit.mk "s" "m" "2024-01-10T00:00:00Z" "u" none]])
        "alice" "alice/a" "2024-01-01" "2024-01-31" 5 =
      ([Commit.mk "s" "m" "2024-01-10T00:00:00Z" "u" none],
        [Call.commits (queryOf "alice" "alice/a" "2024-01-01" "2024-01-31") 1]) := by
  have h := claim_C3 [List.replicate 100 (Repo.mk "alice/a" false "u"),
      [Repo.mk "alice/b" true "v"]]
    [[Commit.mk "s" "m" "2024-01-10T00:00:00Z" "u" none]]
    "alice" "alice/a" "2024-01-01" "2024-01-31" 5 5
    (by decide)
    (by
      intro i hi
      simp only [List.length_cons, List.length_nil] at hi
      have hi0 : i = 0 := by omega
      subst hi0
      simp)
    (by simp) (by decide) (by decide)
    (by intro i hi; simp at hi) (by simp) (by decide)
  refine ⟨by decide, by decide, ?_, ?_⟩
  · have h1 := h.1
    simpa using h1
  · have h2 := h.2.2.1
    simpa using h2

/-- Commit pagination hitting a non-200 response: after full status-200
pages, a non-200 page makes the loop stop and return exactly what it has
collected so far (possibly nothing); the failing page is the last one
requested.  No error is reported: the return type carries no error
channel. -/
theorem get_commits_from_repo_go_err (f : CommitQuery → Nat → Response Commit)
    (q : CommitQuery) (ps : List (List Commit)) (k fuel : Nat)
    (acc : List Commit) (calls : List Call)
    (hoff : ∀ i, i < ps.length → f q (k + i) = ⟨200, ps.getD i []⟩)
    (hfull : ∀ i, i < ps.length → (ps.getD i []).length = 100)
    (herr : (f q (k + ps.length)).status ≠ 200)
    (hfuel : ps.length + 1 ≤ fuel) :
    get_commits_from_repo_go f q fuel k acc calls =
      (acc ++ ps.flatten, calls ++ (List.range' k (ps.length + 1)).map (Call.commits q)) := by
  induction ps generalizing k fuel acc calls with
  | nil =>
    cases fuel with
    | zero => simp at hfuel
    | succ fuel =>
      simp only [List.length_nil, Nat.add_zero] at herr
      simp [get_commits_from_repo_go, herr, List.range']
  | cons p ps ih =>
    cases fuel with
    | zero => simp at hfuel
    | succ fuel =>
      have hk : f q k = ⟨200, p⟩ := by
        have h0 := hoff 0 (by simp)
        simpa using h0
      have hfl : p.length = 100 := by
        have h0 := hfull 0 (by simp)
        simpa using h0
      have hp : p ≠ [] := by
        intro h
        rw [h] at hfl
        simp at hfl
      have hrec := ih (k + 1) fuel (acc ++ p) (calls ++ [Call.commits q k])
        (fun i hi => by
          have h0 := hoff (i + 1) (by simpa using hi)
          rw [show k + (i + 1) = k + 1 + i by omega] at h0
          simpa using h0)
        (fun i hi => by
          have h0 := hfull (i + 1) (by simpa using hi)
          simpa using h0)
        (by
          rw [show k + 1 + ps.length = k + (p :: ps).length by simp; omega]
          exact herr)
        (by simp at hfuel ⊢; omega)
      simp only [get_commits_from_repo_go, hk, hfl]
      norm_num [hp]
      rw [hrec]
      simp [List.range'_succ]

/-- Structure of the fetch_all_commits fold: items, counts and calls
accumulate repository by repository. -/
theorem fetch_all_commits_foldl (fetchCommits : CommitQuery → Nat → Response Commit)
    (username start_date end_date : String) (fuel : Nat) (repos : List Repo)
    (a : List Commit) (m : List (String × Nat)) (cs : List Call) :
    repos.foldl (fetch_all_commits_step fetchCommits username start_date end_date fuel)
        (a, m, cs) =
      (a ++ (repos.map (taggedOf fetchCommits username start_date end_date fuel)).flatten,
       repos.foldl (countStep (commitsOf fetchCommits username start_date end_date fuel)) m,
       cs ++ (repos.map (commitCallsOf fetchCommits username start_date end_date fuel)).flatten) := by
  induction repos generalizing a m cs with
  | nil => simp
  | cons rp repos ih =>
    by_cases hc : (get_commits_from_repo fetchCommits username rp.full_name
        start_date end_date fuel).1 = []
    · simp only [List.foldl_cons]
      rw [show fetch_all_commits_step fetchCommits username start_date end_date fuel
          (a, m, cs) rp =
          (a, m, cs ++ commitCallsOf fetchCommits username start_date end_date fuel rp) from by
        simp [fetch_all_commits_step, commitCallsOf, hc]]
      rw [ih]
      simp [taggedOf, commitsOf, hc, countStep]
    · simp only [List.foldl_cons]
      rw [show fetch_all_commits_step fetchCommits username start_date end_date fuel
          (a, m, cs) rp =
          (a ++ taggedOf fetchCommits username start_date end_date fuel rp,
           dictSet m rp.full_name
             (commitsOf fetchCommits username start_date end_date fuel rp).length,
           cs ++ commitCallsOf fetchCommits username start_date end_date fuel rp) from by
        simp [fetch_all_commits_step, commitCallsOf, taggedOf, commitsOf, tagCommit, hc]]
      rw [ih]
      simp [taggedOf, commitsOf, hc, countStep]

/-- Components of fetch_all_commits: the sorted concatenation of every
enumerated repository's tagged commits, the per-repository counts fold, and
the full request trace (repository pages first, then each repository's
commit pages in enumeration order). -/
theorem fetch_all_commits_spec (fetchRepos : Nat → Response Repo)
    (fetchCommits : CommitQuery → Nat → Response Commit)
    (username start_date end_date : String) (fuel : Nat) :
    fetch_all_commits fetchRepos fetchCommits username start_date end_date fuel =
      (sortCommits (((get_all_repositories fetchRepos fuel).1.map
          (taggedOf fetchCommits username start_date end_date fuel)).flatten),
       (get_all_repositories fetchRepos fuel).1.foldl
         (countStep (commitsOf fetchCommits username start_date end_date fuel)) [],
       (get_all_repositories fetchRepos fuel).2 ++
         ((get_all_repositories fetchRepos fuel).1.map
           (commitCallsOf fetchCommits username start_date end_date fuel)).flatten) := by
  simp only [fetch_all_commits]
  rw [fetch_all_commits_foldl]
  simp

/-- C4: a non-200 page during commit pagination makes get_commits_from_repo
abandon that repository only, returning the commits accumulated from the
full pages before the failure (possibly none) as a plain value with no
error channel; and fetch_all_commits always visits every enumerated
repository: the aggregate is the sorted concatenation of every enumerated
repository's contribution and the trace contains every repository's
commit-page requests, so one repository's failure never stops the run. -/
theorem claim_C4 (fetchRepos : Nat → Response Repo)
    (fetchCommits : CommitQuery → Nat → Response Commit)
    (username start_date end_date repo_full_name : String) (fuel fuelC : Nat)
    (ps : List (List Commit))
    (hoff : ∀ i, i < ps.length →
      fetchCommits (queryOf username repo_full_name start_date end_date) (1 + i) =
        ⟨200, ps.getD i []⟩)
    (hfull : ∀ i, i < ps.length → (ps.getD i []).length = 100)
    (herr : (fetchCommits (queryOf username repo_full_name start_date end_date)
      (1 + ps.length)).status ≠ 200)
    (hfuel : ps.length + 1 ≤ fuelC) :
    get_commits_from_repo fetchCommits username repo_full_name start_date end_date fuelC =
      (ps.flatten, (List.range' 1 (ps.length + 1)).map
        (Call.commits (queryOf username repo_full_name start_date end_date))) ∧
    (fetch_all_commits fetchRepos fetchCommits username start_date end_date fuel).1 =
      sortCommits (((get_all_repositories fetchRepos fuel).1.map
        (taggedOf fetchCommits username start_date end_date fuel)).flatten) ∧
    (fetch_all_commits fetchRepos fetchCommits username start_date end_date fuel).2.2 =
      (get_all_repositories fetchRepos fuel).2 ++
        ((get_all_repositories fetchRepos fuel).1.map
          (commitCallsOf fetchCommits username start_date end_date fuel)).flatten := by
  refine ⟨?_, ?_, ?_⟩
  · have h := get_commits_from_repo_go_err fetchCommits
      (queryOf username repo_full_name start_date end_date) ps 1 fuelC [] []
      hoff hfull herr hfuel
    simpa [get_commits_from_repo, queryOf] using h
  · rw [fetch_all_commits_spec]
  · rw [fetch_all_commits_spec]

/-- Witness for C4: a repository whose very first commit page answers 404
yields the empty list while the run's aggregate over the other oracle is
still produced. -/
theorem claim_C4_witness :
    ((sampleErrCommitOracle (queryOf "alice" "alice/a" "2024-01-01" "2024-01-31")
      (1 + ([] : List (List Commit)).length)).status ≠ 200) ∧
    get_commits_from_repo sampleErrCommitOracle "alice" "alice/a"
        "2024-01-01" "2024-01-31" 5 =
      (([] : List (List Commit)).flatten,
        (List.range' 1 (([] : List (List Commit)).length + 1)).map
          (Call.commits (queryOf "alice" "alice/a" "2024-01-01" "2024-01-31"))) :=
  ⟨by decide,
    (claim_C4 sampleRepoOracle sampleErrCommitOracle "alice" "2024-01-01" "2024-01-31"
      "alice/a" 5 5 [] (fun i hi => absurd hi (by simp)) (fun i hi => absurd hi (by simp))
      (by decide) (by decide)).1⟩

/-- Sortedness of the aggregate: the stable descending mergeSort leaves every
pair in non-increasing timestamp-string order. -/
theorem sortCommits_pairwise (l : List Commit) :
    List.Pairwise (fun a b => strLe b.date.data a.date.data = true) (sortCommits l) :=
  List.sorted_mergeSort
    (fun a b c hab hbc => strLe_trans c.date.data b.date.data a.date.data hbc hab)
    (fun a b => by
      rcases strLe_total a.date.data b.date.data with h | h <;> simp [h])
    l

/-- C2: in the aggregated list every adjacent pair is in non-increasing
committer-timestamp order under code-point lexicographic string comparison,
and on strings of the fixed zero-padded ISO-8601 format that comparison
coincides with chronological order of the parsed timestamps. -/
theorem claim_C2 (fetchRepos : Nat → Response Repo)
    (fetchCommits : CommitQuery → Nat → Response Commit)
    (username start_date end_date : String) (fuel : Nat) :
    List.Chain' (fun a b => strLe b.date.data a.date.data = true)
      (fetch_all_commits fetchRepos fetchCommits username start_date end_date fuel).1 ∧
    (∀ (s t : String) (u v : Timestamp), parseTimestamp s = some u →
      parseTimestamp t = some v →
      (strLe s.data t.data = true ↔ chronoLe u v = true)) := by
  constructor
  · rw [fetch_all_commits_spec]
    exact (sortCommits_pairwise _).chain'
  · intro s t u v hs ht
    exact strLe_iff_chronoLe s.data t.data u v hs ht

/-- Witness for C2: the coincidence of string order and chronological order
at two concrete timestamps, via the theorem. -/
theorem claim_C2_witness :
    parseTimestamp "2024-01-10T00:00:00Z" = some ⟨2024, 1, 10, 0, 0, 0⟩ ∧
    parseTimestamp "2024-01-20T00:00:00Z" = some ⟨2024, 1, 20, 0, 0, 0⟩ ∧
    (strLe "2024-01-10T00:00:00Z".data "2024-01-20T00:00:00Z".data = true ↔
      chronoLe ⟨2024, 1, 10, 0, 0, 0⟩ ⟨2024, 1, 20, 0, 0, 0⟩ = true) :=
  ⟨by decide, by decide,
    (claim_C2 sampleRepoOracle sampleCommitOracle "alice" "2024-01-01" "2024-01-31" 5).2
      "2024-01-10T00:00:00Z" "2024-01-20T00:00:00Z" ⟨2024, 1, 10, 0, 0, 0⟩
      ⟨2024, 1, 20, 0, 0, 0⟩ (by decide) (by decide)⟩

/-- A commit with an unparseable timestamp (or a missing back-reference
earlier in the list) aborts the detailed display loop with an error. -/
theorem display_go_error (i : Nat) (l : List Commit)
    (hex : ∃ c ∈ l, strptimeTimestamp c.date = none) :
    ∃ e, display_commits_go i l = .error e := by
  induction l generalizing i with
  | nil =>
    obtain ⟨c, hc, _⟩ := hex
    simp at hc
  | cons c0 rest ih =>
    obtain ⟨c, hc, hnone⟩ := hex
    rcases hrep : c0.repository with _ | tag
    · exact ⟨"KeyError: repository", by simp [display_commits_go, hrep]⟩
    · rcases hts : strptimeTimestamp c0.date with _ | ts
      · exact ⟨"ValueError: time data does not match format",
          by simp [display_commits_go, hrep, hts]⟩
      · have hc' : c ∈ rest := by
          rcases List.mem_cons.mp hc with h | h
          · subst h
            rw [hts] at hnone
            cases hnone
          · exact h
        obtain ⟨e, he⟩ := ih (i + 1) ⟨c, hc', hnone⟩
        exact ⟨e, by simp [display_commits_go, hrep, hts, he]⟩

/-- A commit with an unparseable timestamp (or a missing back-reference
earlier in the list) aborts the Markdown detailed loop with an error. -/
theorem md_go_error (cur : Option String) (l : List Commit)
    (hex : ∃ c ∈ l, strptimeTimestamp c.date = none) :
    ∃ e, export_to_markdown_go cur l = .error e := by
  induction l generalizing cur with
  | nil =>
    obtain ⟨c, hc, _⟩ := hex
    simp at hc
  | cons c0 rest ih =>
    obtain ⟨c, hc, hnone⟩ := hex
    rcases hrep : c0.repository with _ | tag
    · exact ⟨"KeyError: repository", by simp [export_to_markdown_go, hrep]⟩
    · rcases hts : strptimeTimestamp c0.date with _ | ts
      · exact ⟨"ValueError: time data does not match format",
          by simp [export_to_markdown_go, hrep, hts]⟩
      · have hc' : c ∈ rest := by
          rcases List.mem_cons.mp hc with h | h
          · subst h
            rw [hts] at hnone
            cases hnone
          · exact h
        obtain ⟨e, he⟩ := ih (some tag.full_name) ⟨c, hc', hnone⟩
        exact ⟨e, by simp [export_to_markdown_go, hrep, hts, he]⟩

/-- C8 as stated fails on the code: the timestamp 2024-1-10T0:0:0Z does not
match the fixed format YYYY-MM-DDTHH:MM:SSZ, yet the report emitters render
the commit without any error, because strptime accepts non-zero-padded
fields. -/
theorem claim_C8_counterexample :
    parseTimestamp "2024-1-10T0:0:0Z" = none ∧
    (display_commits [Commit.mk "cccccccccc" "m3" "2024-1-10T0:0:0Z" "u3"
      (some ⟨"r/a", false, "ua"⟩)] []).isOk = true ∧
    (export_to_markdown [Commit.mk "cccccccccc" "m3" "2024-1-10T0:0:0Z" "u3"
      (some ⟨"r/a", false, "ua"⟩)] [] "2024-01-01" "2024-01-31").isOk = true := by
  have hts : strptimeTimestamp "2024-1-10T0:0:0Z" = some ⟨2024, 1, 10, 0, 0, 0⟩ := by
    decide
  refine ⟨by decide, ?_, ?_⟩
  · simp [display_commits, display_commits_go, hts, Except.isOk, Except.toBool]
  · simp [export_to_markdown, export_to_markdown_go, hts, Except.isOk, Except.toBool]

/-- C8 amended: every commit in the aggregated list carries a repository
back-reference attached at fetch time, and a commit whose timestamp the
script's strptime parse rejects (text outside the format with zero-padding
optional, calendar-invalid days, seconds above 59, year 0) makes the report
emitters (console display and Markdown export) fail with an unrecoverable
error. -/
theorem claim_C8 (fetchRepos : Nat → Response Repo)
    (fetchCommits : CommitQuery → Nat → Response Commit)
    (username start_date end_date : String) (fuel : Nat)
    (counts : List (String × Nat)) :
    (∀ c ∈ (fetch_all_commits fetchRepos fetchCommits username start_date end_date fuel).1,
      ∃ tag, c.repository = some tag) ∧
    (∀ commits : List Commit, (∃ c ∈ commits, strptimeTimestamp c.date = none) →
      (∃ e, display_commits commits counts = .error e) ∧
      (∃ e, export_to_markdown commits counts start_date end_date = .error e)) := by
  constructor
  · intro c hc
    rw [fetch_all_commits_spec] at hc
    simp only [sortCommits, List.mem_mergeSort, List.mem_flatten, List.mem_map] at hc
    obtain ⟨l, ⟨rp, hrp, rfl⟩, hcl⟩ := hc
    simp only [taggedOf, List.mem_map] at hcl
    obtain ⟨c0, hc0, rfl⟩ := hcl
    exact ⟨_, rfl⟩
  · intro commits hex
    have hne : commits ≠ [] := by
      obtain ⟨c, hc, _⟩ := hex
      intro h
      subst h
      simp at hc
    constructor
    · obtain ⟨e, he⟩ := display_go_error 1 commits hex
      exact ⟨e, by simp [display_commits, hne, he]⟩
    · obtain ⟨e, he⟩ := md_go_error none commits hex
      exact ⟨e, by simp [export_to_markdown, he]⟩

/-- Witness for C8: the aggregated sample list's first commit carries a
back-reference, and a list holding a commit with a malformed timestamp makes
the display fail. -/
theorem claim_C8_witness :
    (Commit.mk "bbbbbbbbbb" "msgB" "2024-01-20T00:00:00Z" "uB"
        (some ⟨"alice/b", true, "urlB"⟩) ∈
      (fetch_all_commits sampleRepoOracle sampleCommitOracle "alice"
        "2024-01-01" "2024-01-31" 5).1) ∧
    (∃ tag, (Commit.mk "bbbbbbbbbb" "msgB" "2024-01-20T00:00:00Z" "uB"
      (some ⟨"alice/b", true, "urlB"⟩)).repository = some tag) ∧
    (∃ c ∈ [Commit.mk "x" "m" "2023-02-30T00:00:00Z" "u" (some ⟨"r", false, "u"⟩)],
      strptimeTimestamp c.date = none) ∧
    (∃ e, display_commits [Commit.mk "x" "m" "2023-02-30T00:00:00Z" "u" (some ⟨"r", false, "u"⟩)]
      [] = .error e) := by
  have h := claim_C8 sampleRepoOracle sampleCommitOracle "alice" "2024-01-01" "2024-01-31" 5 []
  have hmem : Commit.mk "bbbbbbbbbb" "msgB" "2024-01-20T00:00:00Z" "uB"
      (some ⟨"alice/b", true, "urlB"⟩) ∈
      (fetch_all_commits sampleRepoOracle sampleCommitOracle "alice"
        "2024-01-01" "2024-01-31" 5).1 := by
    rw [fetch_all_commits_spec]
    simp only [sortCommits, List.mem_mergeSort]
    decide
  refine ⟨hmem, h.1 _ hmem, ⟨Commit.mk "x" "m" "2023-02-30T00:00:00Z" "u" (some ⟨"r", false, "u"⟩),
      by decide, by decide⟩, ?_⟩
  exact (h.2 [Commit.mk "x" "m" "2023-02-30T00:00:00Z" "u" (some ⟨"r", false, "u"⟩)]
    ⟨Commit.mk "x" "m" "2023-02-30T00:00:00Z" "u" (some ⟨"r", false, "u"⟩), by decide, by decide⟩).1

/-- C9: when the aggregated commit list is empty, the run shows the
no-commits notice instead of the summary, never reaches the export menu or
either emitter, and exits with code 0. -/
theorem claim_C9 (token username : String) (htok : token ≠ "") (husr : username ≠ "")
    (argv : List String) (r : UserResponse) (h200 : r.status = 200)
    (fetchRepos : Nat → Response Repo) (fetchCommits : CommitQuery → Nat → Response Commit)
    (stdin : List String) (fuel : Nat) (h3 : argv.length = 3)
    (hd1 : (strptimeDate (argv.getD 1 "")).isSome)
    (hd2 : (strptimeDate (argv.getD 2 "")).isSome)
    (hempty : (fetch_all_commits fetchRepos fetchCommits username (argv.getD 1 "")
      (argv.getD 2 "") fuel).1 = []) :
    mainRun (some token) (some username) argv r fetchRepos fetchCommits stdin fuel =
      (0, Call.user :: (fetch_all_commits fetchRepos fetchCommits username (argv.getD 1 "")
          (argv.getD 2 "") fuel).2.2,
        [Out.banner, Out.authenticated r.login,
          Out.displayed [("\n" ++ eq80), "No commits found in the specified date range.", eq80],
          Out.doneMsg]) := by
  have hvt : validate_token r = (true, r.login) := by simp [validate_token, h200]
  have hg1 : argv.getD 1 "" = getElem argv 1 (by omega) :=
    List.getD_eq_getElem argv "" (by omega)
  have hg2 : argv.getD 2 "" = getElem argv 2 (by omega) :=
    List.getD_eq_getElem argv "" (by omega)
  rw [hg1, hg2] at hempty
  have hd1' : ¬ strptimeDate (getElem argv 1 (by omega)) = none := by
    rw [hg1] at hd1
    simp [Option.isSome_iff_ne_none] at hd1
    exact hd1
  have hd2' : ¬ strptimeDate (getElem argv 2 (by omega)) = none := by
    rw [hg2] at hd2
    simp [Option.isSome_iff_ne_none] at hd2
    exact hd2
  have hdisp : display_commits (fetch_all_commits fetchRepos fetchCommits username
      (getElem argv 1 (by omega)) (getElem argv 2 (by omega)) fuel).1
      (fetch_all_commits fetchRepos fetchCommits username
      (getElem argv 1 (by omega)) (getElem argv 2 (by omega)) fuel).2.1 =
      .ok [("\n" ++ eq80), "No commits found in the specified date range.", eq80] := by
    rw [hempty]
    simp [display_commits]
  simp [mainRun, hvt, htok, husr, h3, hg1, hg2, hd1', hd2', hdisp, hempty]
  simp [display_commits]

/-- Witness for C9: an account with zero repositories yields the empty
aggregate, the no-commits notice, no export menu and exit code 0. -/
theorem claim_C9_witness :
    ("tok" : String) ≠ "" ∧
    (strptimeDate (["p", "2024-01-01", "2024-01-31"].getD 1 "")).isSome = true ∧
    (fetch_all_commits emptyRepoOracle sampleCommitOracle "alice"
      (["p", "2024-01-01", "2024-01-31"].getD 1 "")
      (["p", "2024-01-01", "2024-01-31"].getD 2 "") 5).1 = [] ∧
    mainRun (some "tok") (some "alice") ["p", "2024-01-01", "2024-01-31"] ⟨200, "alice"⟩
        emptyRepoOracle sampleCommitOracle [] 5 =
      (0, Call.user :: (fetch_all_commits emptyRepoOracle sampleCommitOracle "alice"
          (["p", "2024-01-01", "2024-01-31"].getD 1 "")
          (["p", "2024-01-01", "2024-01-31"].getD 2 "") 5).2.2,
        [Out.banner, Out.authenticated "alice",
          Out.displayed [("\n" ++ eq80), "No commits found in the specified date range.", eq80],
          Out.doneMsg]) := by
  have hempty : (fetch_all_commits emptyRepoOracle sampleCommitOracle "alice"
      (["p", "2024-01-01", "2024-01-31"].getD 1 "")
      (["p", "2024-01-01", "2024-01-31"].getD 2 "") 5).1 = [] := by
    rw [fetch_all_commits_spec]
    have hr : (get_all_repositories emptyRepoOracle 5).1 = [] := by decide
    simp [sortCommits, hr]
  exact ⟨by decide, by decide, hempty,
    claim_C9 "tok" "alice" (by decide) (by decide) ["p", "2024-01-01", "2024-01-31"]
      ⟨200, "alice"⟩ rfl emptyRepoOracle sampleCommitOracle [] 5 (by decide)
      (by decide) (by decide) hempty⟩

/-- Python dict assignment with a fresh key appends the entry. -/
theorem dictSet_append (m : List (String × Nat)) (k : String) (v : Nat)
    (h : ∀ p ∈ m, p.1 ≠ k) : dictSet m k v = m ++ [(k, v)] := by
  have hc : m.any (fun p => p.1 == k) = false := by
    rw [List.any_eq_false]
    intro p hp
    simpa using h p hp
  simp [dictSet, hc]

/-- The count fold over repositories with pairwise distinct names appends
one entry per repository with a nonempty commit list, keyed by its full
name and valued by its commit count. -/
theorem countStep_foldl (f : Repo → List Commit) (repos : List Repo)
    (m : List (String × Nat))
    (hdisj : ∀ rp ∈ repos, ∀ p ∈ m, p.1 ≠ rp.full_name)
    (hnodup : (repos.map Repo.full_name).Nodup) :
    repos.foldl (countStep f) m =
      m ++ (repos.filter (fun rp => decide (f rp ≠ []))).map
        (fun rp => (rp.full_name, (f rp).length)) := by
  induction repos generalizing m with
  | nil => simp
  | cons rp repos ih =>
    have hnodup' : (repos.map Repo.full_name).Nodup := by
      simp only [List.map_cons, List.nodup_cons] at hnodup
      exact hnodup.2
    have hnotin : rp.full_name ∉ repos.map Repo.full_name := by
      simp only [List.map_cons, List.nodup_cons] at hnodup
      exact hnodup.1
    simp only [List.foldl_cons]
    by_cases hc : f rp = []
    · rw [show countStep f m rp = m from by simp [countStep, hc]]
      rw [ih m (fun r hr p hp => hdisj r (List.mem_cons_of_mem rp hr) p hp) hnodup']
      simp [hc]
    · rw [show countStep f m rp = dictSet m rp.full_name (f rp).length from by
        simp [countStep, hc]]
      rw [dictSet_append m rp.full_name (f rp).length
        (fun p hp => hdisj rp (List.mem_cons_self rp repos) p hp)]
      rw [ih (m ++ [(rp.full_name, (f rp).length)]) ?_ hnodup']
      · simp [hc]
      · intro r hr p hp
        rcases List.mem_append.mp hp with hpm | hps
        · exact hdisj r (List.mem_cons_of_mem rp hr) p hpm
        · have hpe : p = (rp.full_name, (f rp).length) := List.mem_singleton.mp hps
          subst hpe
          intro heq
          have heq2 : rp.full_name = r.full_name := heq
          exact hnotin (by
            rw [heq2]
            exact List.mem_map_of_mem Repo.full_name hr)

/-- Repositories with an empty commit list contribute zero to the total, so
the counted sum over nonempty repositories equals the plain sum. -/
theorem filter_sum_length (f : Repo → List Commit) (repos : List Repo) :
    (((repos.filter (fun rp => decide (f rp ≠ []))).map
      (fun rp => (rp.full_name, (f rp).length))).map Prod.snd).sum =
      (repos.map (fun rp => (f rp).length)).sum := by
  induction repos with
  | nil => rfl
  | cons rp repos ih =>
    rw [List.filter_cons]
    by_cases hc : f rp = []
    · rw [if_neg (by simp [hc])]
      rw [ih]
      simp [hc]
    · rw [if_pos (by simp [hc])]
      simp only [List.map_cons, List.sum_cons]
      rw [ih]

/-- C10: when the enumerated repository names are pairwise distinct, the
per-repository count mapping holds exactly the full names of repositories
with at least one fetched commit, in enumeration order, each mapped to its
fetched-commit count, and the counts sum to the aggregated list's length. -/
theorem claim_C10 (fetchRepos : Nat → Response Repo)
    (fetchCommits : CommitQuery → Nat → Response Commit)
    (username start_date end_date : String) (fuel : Nat)
    (hnodup : ((get_all_repositories fetchRepos fuel).1.map Repo.full_name).Nodup) :
    (fetch_all_commits fetchRepos fetchCommits username start_date end_date fuel).2.1 =
      ((get_all_repositories fetchRepos fuel).1.filter
        (fun rp => decide (commitsOf fetchCommits username start_date end_date fuel rp ≠ []))).map
        (fun rp => (rp.full_name,
          (commitsOf fetchCommits username start_date end_date fuel rp).length)) ∧
    ((fetch_all_commits fetchRepos fetchCommits username start_date end_date
        fuel).2.1.map Prod.snd).sum =
      (fetch_all_commits fetchRepos fetchCommits username start_date end_date fuel).1.length := by
  have hcounts : (fetch_all_commits fetchRepos fetchCommits username start_date end_date
      fuel).2.1 =
      ((get_all_repositories fetchRepos fuel).1.filter
        (fun rp => decide (commitsOf fetchCommits username start_date end_date fuel rp ≠ []))).map
        (fun rp => (rp.full_name,
          (commitsOf fetchCommits username start_date end_date fuel rp).length)) := by
    rw [fetch_all_commits_spec]
    rw [show ((sortCommits (((get_all_repositories fetchRepos fuel).1.map
        (taggedOf fetchCommits username start_date end_date fuel)).flatten),
        (get_all_repositories fetchRepos fuel).1.foldl
          (countStep (commitsOf fetchCommits username start_date end_date fuel)) [],
        (get_all_repositories fetchRepos fuel).2 ++
          ((get_all_repositories fetchRepos fuel).1.map
            (commitCallsOf fetchCommits username start_date end_date fuel)).flatten) :
        List Commit × List (String × Nat) × List Call).2.1 =
        (get_all_repositories fetchRepos fuel).1.foldl
          (countStep (commitsOf fetchCommits username start_date end_date fuel)) [] from rfl]
    rw [countStep_foldl _ _ [] (by intro r hr p hp; simp at hp) hnodup]
    simp
  refine ⟨hcounts, ?_⟩
  rw [hcounts, fetch_all_commits_spec]
  rw [filter_sum_length (commitsOf fetchCommits username start_date end_date fuel)
    (get_all_repositories fetchRepos fuel).1]
  simp [sortCommits, List.length_mergeSort, List.length_flatten, List.map_map,
    Function.comp_def, taggedOf]

/-- Witness for C10 at the sample oracles (two distinct repositories, one
commit each). -/
theorem claim_C10_witness :
    ((get_all_repositories sampleRepoOracle 5).1.map Repo.full_name).Nodup ∧
    ((fetch_all_commits sampleRepoOracle sampleCommitOracle "alice" "2024-01-01"
        "2024-01-31" 5).2.1.map Prod.snd).sum =
      (fetch_all_commits sampleRepoOracle sampleCommitOracle "alice" "2024-01-01"
        "2024-01-31" 5).1.length :=
  ⟨by decide, (claim_C10 sampleRepoOracle sampleCommitOracle "alice" "2024-01-01"
    "2024-01-31" 5 (by decide)).2⟩

/-- Behaviour of runsCountOpt with a concrete current repository. -/
theorem runsCountOpt_some (r : String) (l : List String) :
    runsCountOpt (some r) l = runsCountFrom r l := by
  cases l <;> simp [runsCountOpt, runsCountFrom]

/-- Behaviour of runsCountOpt with no current repository. -/
theorem runsCountOpt_none (l : List String) : runsCountOpt none l = runsCount l := by
  cases l <;> simp [runsCountOpt, runsCount]

/-- The Markdown detailed loop succeeds on tagged, parseable commits and
writes one repository heading per maximal run of equal repository names,
relative to the tracked current repository. -/
theorem md_go_headings (commits : List Commit) (cur : Option String)
    (hrep : ∀ c ∈ commits, (c.repository).isSome = true)
    (hdate : ∀ c ∈ commits, (strptimeTimestamp c.date).isSome = true) :
    ∃ out, export_to_markdown_go cur commits = .ok out ∧
      countHeadings out = runsCountOpt cur (commits.map repoNameOf) := by
  induction commits generalizing cur with
  | nil => exact ⟨[], rfl, rfl⟩
  | cons c rest ih =>
    obtain ⟨tag, htag⟩ := Option.isSome_iff_exists.mp (hrep c (List.mem_cons_self c rest))
    obtain ⟨ts, hts⟩ := Option.isSome_iff_exists.mp (hdate c (List.mem_cons_self c rest))
    obtain ⟨out, hok, hcount⟩ := ih (some tag.full_name)
      (fun x hx => hrep x (List.mem_cons_of_mem c hx))
      (fun x hx => hdate x (List.mem_cons_of_mem c hx))
    rw [runsCountOpt_some] at hcount
    by_cases hcur : some tag.full_name = cur
    · refine ⟨MdChunk.text ("- **" ++ c.sha.take 7 ++ "** (" ++ formatDate ts ++ "): " ++
          firstLine c.message ++ " [→ View](" ++ c.html_url ++ ")\n") :: out, ?_, ?_⟩
      · simp only [export_to_markdown_go, htag, hts, hok]
        rw [if_pos hcur]
        simp
      · simp only [List.map_cons, runsCountOpt]
        rw [show repoNameOf c = tag.full_name from by simp [repoNameOf, htag]]
        rw [if_pos hcur]
        simpa [countHeadings, isHeading] using hcount
    · refine ⟨MdChunk.repoHeading ("\n### " ++ privacyLabelMd tag.isPrivate ++ " " ++
          tag.full_name ++ "\n\n") ::
        MdChunk.text ("- **" ++ c.sha.take 7 ++ "** (" ++ formatDate ts ++ "): " ++
          firstLine c.message ++ " [→ View](" ++ c.html_url ++ ")\n") :: out, ?_, ?_⟩
      · simp only [export_to_markdown_go, htag, hts, hok]
        rw [if_neg hcur]
        simp [privacyLabelMd]
      · simp only [List.map_cons, runsCountOpt]
        rw [show repoNameOf c = tag.full_name from by simp [repoNameOf, htag]]
        rw [if_neg hcur]
        simp [countHeadings, isHeading] at hcount ⊢
        omega

/-- C6: on a tagged, parseable aggregated list the Markdown export succeeds
and contains exactly one repository heading per maximal contiguous run of
same-repository commits, so interleaved repositories produce repeated
headings and the heading count is the run count, not the distinct-repository
count. -/
theorem claim_C6 (commits : List Commit) (counts : List (String × Nat))
    (start_date end_date : String)
    (hrep : ∀ c ∈ commits, (c.repository).isSome = true)
    (hdate : ∀ c ∈ commits, (strptimeTimestamp c.date).isSome = true) :
    ∃ out, export_to_markdown commits counts start_date end_date = .ok out ∧
      countHeadings out = runsCount (commits.map repoNameOf) := by
  obtain ⟨detail, hok, hcount⟩ := md_go_headings commits none hrep hdate
  have hmap : ((sortCountsDesc counts).map
      (fun p => MdChunk.text ("- **" ++ p.1 ++ "**: " ++ toString p.2 ++ " commits\n"))).filter
      isHeading = [] := by
    rw [List.filter_eq_nil_iff]
    intro a ha
    obtain ⟨p, hp, rfl⟩ := List.mem_map.mp ha
    simp [isHeading]
  refine ⟨MdChunk.text "# GitHub Commits Report\n\n" ::
      MdChunk.text ("**Period:** " ++ start_date ++ " to " ++ end_date ++ "\n\n") ::
      MdChunk.text ("**Total Commits:** " ++ toString commits.length ++ "\n\n") ::
      MdChunk.text ("**Repositories:** " ++ toString counts.length ++ "\n\n") ::
      MdChunk.text "## Summary by Repository\n\n" ::
      ((sortCountsDesc counts).map
        (fun p => MdChunk.text ("- **" ++ p.1 ++ "**: " ++ toString p.2 ++ " commits\n")) ++
        MdChunk.text "\n---\n\n## Detailed Commits\n\n" :: detail), ?_, ?_⟩
  · simp [export_to_markdown, hok]
  · rw [runsCountOpt_none] at hcount
    simp [countHeadings, List.filter_append, List.filter_cons, isHeading, hmap]
    simpa [countHeadings] using hcount

/-- Witness for C6: three commits with interleaved repositories produce
three headings over two distinct repositories. -/
theorem claim_C6_witness :
    (∀ c ∈ sampleTagged, (c.repository).isSome = true) ∧
    (∀ c ∈ sampleTagged, (strptimeTimestamp c.date).isSome = true) ∧
    (∃ out, export_to_markdown sampleTagged [] "2024-01-01" "2024-01-31" = .ok out ∧
      countHeadings out = runsCount (sampleTagged.map repoNameOf)) ∧
    runsCount (sampleTagged.map repoNameOf) = 3 :=
  ⟨by decide, by decide,
    claim_C6 sampleTagged [] "2024-01-01" "2024-01-31" (by decide) (by decide), by decide⟩

/-- The CSV row loop succeeds on tagged commits, producing one row per
commit. -/
theorem export_to_csv_go_ok (commits : List Commit)
    (hrep : ∀ c ∈ commits, (c.repository).isSome = true) :
    export_to_csv_go commits = .ok (commits.map csvRowOf) := by
  induction commits with
  | nil => rfl
  | cons c rest ih =>
    obtain ⟨tag, htag⟩ := Option.isSome_iff_exists.mp (hrep c (List.mem_cons_self c rest))
    have ih2 := ih (fun x hx => hrep x (List.mem_cons_of_mem c hx))
    simp [export_to_csv_go, htag, ih2, csvRowOf]

/-- No newline survives the replacement performed on CSV messages. -/
theorem replaceNlChars_no_newline (l : List Char) : '\n' ∉ replaceNlChars l := by
  induction l with
  | nil => simp [replaceNlChars]
  | cons c cs ih =>
    by_cases hc : c = '\n'
    · simp [replaceNlChars, hc, ih]
    · simp [replaceNlChars, hc, ih, Ne.symm hc]

/-- C7: exporting a tagged aggregated list to CSV yields the header row plus
exactly one data row per commit, whose Private field is exactly Yes for a
private source repository and No otherwise, and whose Message field has
every newline replaced by the space-pipe-space separator, so no field of the
message ever contains a newline and no extra CSV record can arise from it. -/
theorem claim_C7 (commits : List Commit)
    (hrep : ∀ c ∈ commits, (c.repository).isSome = true) :
    export_to_csv commits = .ok (csvHeader :: commits.map csvRowOf) ∧
    (csvHeader :: commits.map csvRowOf).length = commits.length + 1 ∧
    (∀ c ∈ commits, ∀ tag, c.repository = some tag →
      csvRowOf c = [c.date, tag.full_name, if tag.isPrivate then "Yes" else "No",
        c.sha.take 7, replaceNl c.message, c.html_url]) ∧
    (∀ s : String, '\n' ∉ (replaceNl s).data) := by
  refine ⟨?_, by simp, ?_, ?_⟩
  · simp [export_to_csv, export_to_csv_go_ok commits hrep]
  · intro c _ tag htag
    simp [csvRowOf, csvRow, htag]
  · intro s
    exact replaceNlChars_no_newline s.data

/-- Witness for C7: a two-commit list, one private and one public, one with
a multi-line message. -/
theorem claim_C7_witness :
    (∀ c ∈ [Commit.mk "aaaaaaaaaa" ("l1" ++ "\n" ++ "l2") "2024-01-20T00:00:00Z" "u1"
        (some ⟨"r/a", true, "ua"⟩),
      Commit.mk "bbbbbbbbbb" "m2" "2024-01-10T00:00:00Z" "u2"
        (some ⟨"r/b", false, "ub"⟩)], (c.repository).isSome = true) ∧
    export_to_csv [Commit.mk "aaaaaaaaaa" ("l1" ++ "\n" ++ "l2") "2024-01-20T00:00:00Z" "u1"
        (some ⟨"r/a", true, "ua"⟩),
      Commit.mk "bbbbbbbbbb" "m2" "2024-01-10T00:00:00Z" "u2"
        (some ⟨"r/b", false, "ub"⟩)] =
      .ok (csvHeader ::
        ([Commit.mk "aaaaaaaaaa" ("l1" ++ "\n" ++ "l2") "2024-01-20T00:00:00Z" "u1"
            (some ⟨"r/a", true, "ua"⟩),
          Commit.mk "bbbbbbbbbb" "m2" "2024-01-10T00:00:00Z" "u2"
            (some ⟨"r/b", false, "ub"⟩)].map csvRowOf)) :=
  ⟨by decide,
    (claim_C7 [Commit.mk "aaaaaaaaaa" ("l1" ++ "\n" ++ "l2") "2024-01-20T00:00:00Z" "u1"
        (some ⟨"r/a", true, "ua"⟩),
      Commit.mk "bbbbbbbbbb" "m2" "2024-01-10T00:00:00Z" "u2"
        (some ⟨"r/b", false, "ub"⟩)] (by decide)).1⟩
